import Mathlib

/-!
Verification of the flowman credential-persistence core.

The development shallowly embeds the JavaScript sources:
  - `src/unnamed/part_005`        (class ConfigFileManager)
  - `src/src/utils/shell-detector.js` (classes ShellDetector and Validator)
  - `src/src/lib/auth-manager.js`     (classes AuthManager and CredentialStorage)

Strings are modelled as `List Char`.  The JavaScript regexes used by
ConfigFileManager are embedded as explicit leftmost/greedy matchers: the
source patterns are anchored with `^` under the `m` flag, so a match can
only start at the beginning of the string or right after a newline; the
scanners below walk the string tracking that "beginning of line" state.
Greedy `\s*` / `\s+` / `["']?` subpatterns are embedded by trying the
longest munch first and backtracking, exactly as the JS engine does.
-/

namespace Flowman

/-- Strings of the model: JavaScript strings as lists of characters. -/
abbrev Str := List Char

/-- Convert a Lean string literal to the model representation. -/
def strL (s : String) : Str := s.toList

/-- The newline character. -/
def nl : Char := '\n'

/-- The single-quote character (code point 39). -/
def squote : Char := Char.ofNat 39

/-- JavaScript `\s` (the whitespace class used by the source regexes),
by code point: tab, LF, VT, FF, CR, space, NBSP, and the Unicode spaces. -/
def jsSpace (c : Char) : Bool :=
  decide (c.toNat = 9 ∨ c.toNat = 10 ∨ c.toNat = 11 ∨ c.toNat = 12 ∨ c.toNat = 13 ∨
    c.toNat = 32 ∨ c.toNat = 160 ∨ c.toNat = 5760 ∨ c.toNat = 8192 ∨ c.toNat = 8193 ∨
    c.toNat = 8194 ∨ c.toNat = 8195 ∨ c.toNat = 8196 ∨ c.toNat = 8197 ∨ c.toNat = 8198 ∨
    c.toNat = 8199 ∨ c.toNat = 8200 ∨ c.toNat = 8201 ∨ c.toNat = 8202 ∨ c.toNat = 8232 ∨
    c.toNat = 8233 ∨ c.toNat = 8239 ∨ c.toNat = 8287 ∨ c.toNat = 12288 ∨ c.toNat = 65279)

/-- Match a literal: if `lit` is a prefix of `s`, return the rest of `s`. -/
def matchLit : Str → Str → Option Str
  | [], s => some s
  | _ :: _, [] => none
  | a :: ps, c :: cs => if a = c then matchLit ps cs else none

/-- All suffixes of `s` obtained by consuming leading `\s` characters,
longest munch first — the alternatives a greedy `\s*` offers, in the
order the JS engine tries them. -/
def spaceSuffixes : Str → List Str
  | [] => [[]]
  | c :: rest => if jsSpace c then spaceSuffixes rest ++ [c :: rest] else [c :: rest]

/-- The alternatives a greedy `\s+` offers (at least one `\s` consumed),
longest munch first. -/
def spacePlusSuffixes : Str → List Str
  | [] => []
  | c :: rest => if jsSpace c then spaceSuffixes rest else []

/-- Return the first `some` produced by `f` along the list. -/
def firstSome {α β : Type} (f : β → Option α) : List β → Option α
  | [] => none
  | a :: rest =>
    match f a with
    | some b => some b
    | none => firstSome f rest

/-- The `["']?([^"'\n]+)["']?` tail of the extraction regexes: optionally
consume one quote (greedily), then capture a maximal nonempty run of
characters other than `"`, `'` and newline.  The trailing `["']?` always
succeeds and does not affect the capture. -/
def captureValue (s : Str) : Option Str :=
  let t := match s with
    | c :: rest => if c = '"' ∨ c = squote then rest else s
    | [] => s
  let run := t.takeWhile fun c => ¬ (c = '"' ∨ c = squote ∨ c = nl)
  if run = [] then none else some run

/-- `.*$` under the `m` flag: greedily consume every character up to (not
including) the next newline or the end of the string. -/
def dropLine (s : Str) : Str := s.dropWhile fun c => ¬ c = nl

/-- The three distinct pattern families of ConfigFileManager: the `bash`
and `zsh` entries of the source pattern tables are textually identical,
and `patterns[shell] || patterns.bash` falls back to `bash` for every
other shell, so `bash` also covers `zsh` and unknown shells. -/
inductive ShellPat
  | bash
  | fish
  | powershell
deriving DecidableEq

/-- `patterns[shell] || patterns.bash` of the source:
`fish` and `powershell` select their own pattern, every other string
(including `zsh`, whose pattern is textually the bash one) behaves as
the bash pattern. -/
def patFor (shell : Str) : ShellPat :=
  if shell = strL "fish" then ShellPat.fish
  else if shell = strL "powershell" then ShellPat.powershell
  else ShellPat.bash

/-- Attempt the extraction regex of `extractEnvVariable` at one anchor
position (`s` is the suffix of the content starting there):
  bash/zsh:   `^\s*export\s+NAME=["']?([^"'\n]+)["']?`
  fish:       `^\s*set\s+-gx\s+NAME\s+["']?([^"'\n]+)["']?`
  powershell: `^\s*\$env:NAME\s*=\s*["']?([^"'\n]+)["']?`
Returns the captured value on success. -/
def extractAt (p : ShellPat) (name : Str) (s : Str) : Option Str :=
  match p with
  | ShellPat.bash =>
    firstSome (fun s1 =>
      (matchLit (strL "export") s1).bind fun s2 =>
      firstSome (fun s3 =>
        (matchLit name s3).bind fun s4 =>
        (matchLit (strL "=") s4).bind captureValue) (spacePlusSuffixes s2)) (spaceSuffixes s)
  | ShellPat.fish =>
    firstSome (fun s1 =>
      (matchLit (strL "set") s1).bind fun s2 =>
      firstSome (fun s3 =>
        (matchLit (strL "-gx") s3).bind fun s4 =>
        firstSome (fun s5 =>
          (matchLit name s5).bind fun s6 =>
          firstSome captureValue (spacePlusSuffixes s6)) (spacePlusSuffixes s4)) (spacePlusSuffixes s2)) (spaceSuffixes s)
  | ShellPat.powershell =>
    firstSome (fun s1 =>
      (matchLit (strL "$env:") s1).bind fun s2 =>
      (matchLit name s2).bind fun s3 =>
      firstSome (fun s4 =>
        (matchLit (strL "=") s4).bind fun s5 =>
        firstSome captureValue (spaceSuffixes s5)) (spaceSuffixes s3)) (spaceSuffixes s)

/-- Attempt the removal regex of the (3-argument) `removeEnvVariable` at
one anchor position:
  bash/zsh:   `^\s*export\s+NAME=.*$`
  fish:       `^\s*set\s+-gx\s+NAME\s+.*$`
  powershell: `^\s*\$env:NAME\s*=.*$`
On success returns the rest of the string after the match (the match ends
at the `$`, i.e. just before the next newline or at the end). -/
def removeAt (p : ShellPat) (name : Str) (s : Str) : Option Str :=
  match p with
  | ShellPat.bash =>
    firstSome (fun s1 =>
      (matchLit (strL "export") s1).bind fun s2 =>
      firstSome (fun s3 =>
        (matchLit name s3).bind fun s4 =>
        (matchLit (strL "=") s4).map dropLine) (spacePlusSuffixes s2)) (spaceSuffixes s)
  | ShellPat.fish =>
    firstSome (fun s1 =>
      (matchLit (strL "set") s1).bind fun s2 =>
      firstSome (fun s3 =>
        (matchLit (strL "-gx") s3).bind fun s4 =>
        firstSome (fun s5 =>
          (matchLit name s5).bind fun s6 =>
          firstSome (fun s7 => some (dropLine s7)) (spacePlusSuffixes s6)) (spacePlusSuffixes s4)) (spacePlusSuffixes s2)) (spaceSuffixes s)
  | ShellPat.powershell =>
    firstSome (fun s1 =>
      (matchLit (strL "$env:") s1).bind fun s2 =>
      (matchLit name s2).bind fun s3 =>
      firstSome (fun s4 =>
        (matchLit (strL "=") s4).map dropLine) (spaceSuffixes s3)) (spaceSuffixes s)

/-! Length facts used to justify termination of the global-replace scanners. -/

theorem matchLit_length {p s r : Str} (h : matchLit p s = some r) :
    p.length + r.length = s.length := by
  induction p generalizing s with
  | nil =>
    simp [matchLit] at h
    simp [h]
  | cons a ps ih =>
    cases s with
    | nil => simp [matchLit] at h
    | cons c cs =>
      by_cases hac : a = c
      · simp [matchLit, hac] at h
        have := ih h
        simp [List.length_cons]
        omega
      · simp [matchLit, hac] at h

theorem mem_spaceSuffixes_length {s t : Str} (h : t ∈ spaceSuffixes s) :
    t.length ≤ s.length := by
  induction s with
  | nil =>
    simp [spaceSuffixes] at h
    simp [h]
  | cons c rest ih =>
    by_cases hc : jsSpace c
    · simp [spaceSuffixes, hc] at h
      rcases h with h | h
      · have := ih h
        simp [List.length_cons]
        omega
      · simp [h]
    · simp [spaceSuffixes, hc] at h
      simp [h]

theorem mem_spacePlusSuffixes_length {s t : Str} (h : t ∈ spacePlusSuffixes s) :
    t.length < s.length := by
  cases s with
  | nil => simp [spacePlusSuffixes] at h
  | cons c rest =>
    by_cases hc : jsSpace c
    · simp [spacePlusSuffixes, hc] at h
      have := mem_spaceSuffixes_length h
      simp [List.length_cons]
      omega
    · simp [spacePlusSuffixes, hc] at h

theorem dropLine_length_le (s : Str) : (dropLine s).length ≤ s.length :=
  (List.dropWhile_sublist _).length_le

theorem firstSome_eq_some {α β : Type} {f : β → Option α} {l : List β} {b : α}
    (h : firstSome f l = some b) : ∃ a ∈ l, f a = some b := by
  induction l with
  | nil => simp [firstSome] at h
  | cons a rest ih =>
    by_cases ha : (f a).isSome
    · rcases Option.isSome_iff_exists.mp ha with ⟨c, hc⟩
      simp [firstSome, hc] at h
      exact ⟨a, by simp, by simp [hc, h]⟩
    · have hn : f a = none := Option.not_isSome_iff_eq_none.mp ha
      simp [firstSome, hn] at h
      rcases ih h with ⟨x, hx, hfx⟩
      exact ⟨x, by simp [hx], hfx⟩

theorem firstSome_eq_none {α β : Type} {f : β → Option α} {l : List β} :
    firstSome f l = none ↔ ∀ a ∈ l, f a = none := by
  induction l with
  | nil => simp [firstSome]
  | cons a rest ih =>
    constructor
    · intro h x hx
      have ha : f a = none := by
        cases hfa : f a with
        | none => rfl
        | some b => simp [firstSome, hfa] at h
      rcases List.mem_cons.mp hx with hx | hx
      · simpa [hx] using ha
      · exact (ih.mp (by simpa [firstSome, ha] using h)) x hx
    · intro h
      have ha : f a = none := h a (by simp)
      simp [firstSome, ha]
      exact ih.mpr fun x hx => h x (by simp [hx])

theorem removeAt_length_lt {p : ShellPat} {n s r : Str}
    (h : removeAt p n s = some r) : r.length < s.length := by
  cases p with
  | bash =>
    rcases firstSome_eq_some h with ⟨s1, hs1, h1⟩
    have hs1l := mem_spaceSuffixes_length hs1
    rcases Option.bind_eq_some.mp h1 with ⟨s2, h2, h3⟩
    have h2l := matchLit_length h2
    rcases firstSome_eq_some h3 with ⟨s3, hs3, h4⟩
    have hs3l := mem_spacePlusSuffixes_length hs3
    rcases Option.bind_eq_some.mp h4 with ⟨s4, h5, h6⟩
    have h5l := matchLit_length h5
    rcases Option.map_eq_some'.mp h6 with ⟨s5, h7, h8⟩
    have h7l := matchLit_length h7
    have h8l : r.length ≤ s5.length := by
      rw [← h8]; exact dropLine_length_le s5
    simp [strL] at h2l h7l
    omega
  | fish =>
    rcases firstSome_eq_some h with ⟨s1, hs1, h1⟩
    have hs1l := mem_spaceSuffixes_length hs1
    rcases Option.bind_eq_some.mp h1 with ⟨s2, h2, h3⟩
    have h2l := matchLit_length h2
    rcases firstSome_eq_some h3 with ⟨s3, hs3, h4⟩
    have hs3l := mem_spacePlusSuffixes_length hs3
    rcases Option.bind_eq_some.mp h4 with ⟨s4, h5, h6⟩
    have h5l := matchLit_length h5
    rcases firstSome_eq_some h6 with ⟨s5, hs5, h7⟩
    have hs5l := mem_spacePlusSuffixes_length hs5
    rcases Option.bind_eq_some.mp h7 with ⟨s6, h8, h9⟩
    have h8l := matchLit_length h8
    rcases firstSome_eq_some h9 with ⟨s7, hs7, h10⟩
    have hs7l := mem_spacePlusSuffixes_length hs7
    have h10l : r.length ≤ s7.length := by
      simp at h10
      rw [← h10]; exact dropLine_length_le s7
    simp [strL] at h2l h5l
    omega
  | powershell =>
    rcases firstSome_eq_some h with ⟨s1, hs1, h1⟩
    have hs1l := mem_spaceSuffixes_length hs1
    rcases Option.bind_eq_some.mp h1 with ⟨s2, h2, h3⟩
    have h2l := matchLit_length h2
    rcases Option.bind_eq_some.mp h3 with ⟨s3, h4, h5⟩
    have h4l := matchLit_length h4
    rcases firstSome_eq_some h5 with ⟨s4, hs4, h6⟩
    have hs4l := mem_spaceSuffixes_length hs4
    rcases Option.map_eq_some'.mp h6 with ⟨s5, h7, h10⟩
    have h7l := matchLit_length h7
    have h10l : r.length ≤ s5.length := by
      rw [← h10]; exact dropLine_length_le s5
    simp [strL] at h2l h7l
    omega

/-- One step of the global replace `content.replace(pattern, '')` of the
3-argument `removeEnvVariable`, with explicit fuel (the scan consumes at
least one character per step, so `s.length + 1` fuel always suffices; the
fuel is erased again by `removeScan` below).  The scan walks the string
left to right; at every position where `^` holds (start of string, or
right after a newline) it tries the removal pattern; on a match it drops
the matched characters and continues scanning after the match (the JS
engine continues from the match end and never rescans earlier text).
`bol` records whether `^` holds at the current position; a match always
ends just before a newline or at the end of the string, never with a
newline as its last character, so `bol` is false right after a match. -/
def removeScanF (p : ShellPat) (n : Str) : Nat → Str → Bool → Str
  | 0, s, _ => s
  | fuel + 1, s, bol =>
    match (if bol then removeAt p n s else none) with
    | some r => removeScanF p n fuel r false
    | none =>
      match s with
      | [] => []
      | c :: rest => c :: removeScanF p n fuel rest (c = nl)

/-- The global replace itself: run the scan with sufficient fuel. -/
def removeScan (p : ShellPat) (n : Str) (s : Str) (bol : Bool) : Str :=
  removeScanF p n (s.length + 1) s bol

theorem removeScanF_congr (p : ShellPat) (n : Str) :
    ∀ (f1 f2 : Nat) {s : Str} {bol : Bool}, s.length < f1 → s.length < f2 →
    removeScanF p n f1 s bol = removeScanF p n f2 s bol := by
  intro f1
  induction f1 with
  | zero => intro f2 s bol h1 _; omega
  | succ f ih =>
    intro f2 s bol h1 h2
    cases f2 with
    | zero => omega
    | succ g =>
      simp only [removeScanF]
      cases hm : (if bol then removeAt p n s else none) with
      | some r =>
        have hr : removeAt p n s = some r := by
          cases bol with
          | false => simp at hm
          | true => simpa using hm
        have hlt := removeAt_length_lt hr
        exact ih _ (by omega) (by omega)
      | none =>
        cases s with
        | nil => rfl
        | cons c rest =>
          simp only [List.length_cons] at h1 h2
          exact congrArg (fun t => c :: t) (ih _ (by omega) (by omega))

theorem removeScan_nil (p : ShellPat) (n : Str) (bol : Bool) :
    removeScan p n [] bol = [] := by
  have hnone : removeAt p n [] = none := by cases p <;> rfl
  cases bol <;> simp [removeScan, removeScanF, hnone]

theorem removeScan_true_some {p : ShellPat} {n s r : Str}
    (hm : removeAt p n s = some r) :
    removeScan p n s true = removeScan p n r false := by
  have hlt := removeAt_length_lt hm
  have h1 : removeScanF p n (s.length + 1) s true = removeScanF p n s.length r false := by
    simp only [removeScanF, if_true, hm]
  calc removeScan p n s true = removeScanF p n s.length r false := h1
    _ = removeScanF p n (r.length + 1) r false :=
        removeScanF_congr p n s.length (r.length + 1) (by omega) (by omega)
    _ = removeScan p n r false := rfl

theorem removeScan_true_cons {p : ShellPat} {n : Str} {c : Char} {rest : Str}
    (hm : removeAt p n (c :: rest) = none) :
    removeScan p n (c :: rest) true = c :: removeScan p n rest (decide (c = nl)) := by
  have h1 : removeScanF p n ((c :: rest).length + 1) (c :: rest) true =
      c :: removeScanF p n (c :: rest).length rest (decide (c = nl)) := by
    simp only [removeScanF, if_true, hm]
  exact h1

theorem removeScan_false_cons (p : ShellPat) (n : Str) (c : Char) (rest : Str) :
    removeScan p n (c :: rest) false = c :: removeScan p n rest (decide (c = nl)) := rfl

/-- Attempt the blank-line clean-up regex `\n\s*\n\s*\n` at one position
(this pattern is not anchored, so it is tried at every position).  On
success returns the rest of the string after the match. -/
def collapseAt (s : Str) : Option Str :=
  (matchLit [nl] s).bind fun s1 =>
  firstSome (fun s2 =>
    (matchLit [nl] s2).bind fun s3 =>
    firstSome (fun s4 => matchLit [nl] s4) (spaceSuffixes s3)) (spaceSuffixes s1)

theorem collapseAt_length_lt {s r : Str} (h : collapseAt s = some r) :
    r.length < s.length := by
  rcases Option.bind_eq_some.mp h with ⟨s1, h1, h2⟩
  have h1l := matchLit_length h1
  rcases firstSome_eq_some h2 with ⟨s2, hs2, h3⟩
  have hs2l := mem_spaceSuffixes_length hs2
  rcases Option.bind_eq_some.mp h3 with ⟨s3, h4, h5⟩
  have h4l := matchLit_length h4
  rcases firstSome_eq_some h5 with ⟨s4, hs4, h6⟩
  have hs4l := mem_spaceSuffixes_length hs4
  have h6l := matchLit_length h6
  simp at h1l h4l h6l
  omega

/-- One step of the global replace `.replace(/\n\s*\n\s*\n/g, '\n\n')`,
with explicit fuel: scan left to right, at every position try the pattern;
on a match emit the replacement and continue after the match. -/
def collapseScanF : Nat → Str → Str
  | 0, s => s
  | fuel + 1, s =>
    match collapseAt s with
    | some r => nl :: nl :: collapseScanF fuel r
    | none =>
      match s with
      | [] => []
      | c :: rest => c :: collapseScanF fuel rest

/-- The blank-line clean-up replace itself: run with sufficient fuel. -/
def collapseScan (s : Str) : Str :=
  collapseScanF (s.length + 1) s

theorem collapseScanF_congr :
    ∀ (f1 f2 : Nat) {s : Str}, s.length < f1 → s.length < f2 →
    collapseScanF f1 s = collapseScanF f2 s := by
  intro f1
  induction f1 with
  | zero => intro f2 s h1 _; omega
  | succ f ih =>
    intro f2 s h1 h2
    cases f2 with
    | zero => omega
    | succ g =>
      simp only [collapseScanF]
      cases hm : collapseAt s with
      | some r =>
        have hlt := collapseAt_length_lt hm
        exact congrArg (fun t => nl :: nl :: t) (ih _ (by omega) (by omega))
      | none =>
        cases s with
        | nil => rfl
        | cons c rest =>
          simp only [List.length_cons] at h1 h2
          exact congrArg (fun t => c :: t) (ih _ (by omega) (by omega))

theorem collapseScan_nil : collapseScan [] = [] := by
  have hnone : collapseAt [] = none := rfl
  simp [collapseScan, collapseScanF, hnone]

theorem collapseScan_some {s r : Str} (h : collapseAt s = some r) :
    collapseScan s = nl :: nl :: collapseScan r := by
  have hlt := collapseAt_length_lt h
  have h1 : collapseScanF (s.length + 1) s = nl :: nl :: collapseScanF s.length r := by
    simp only [collapseScanF, h]
  calc collapseScan s = nl :: nl :: collapseScanF s.length r := h1
    _ = nl :: nl :: collapseScanF (r.length + 1) r :=
        congrArg (fun t => nl :: nl :: t)
          (collapseScanF_congr s.length (r.length + 1) (by omega) (by omega))
    _ = nl :: nl :: collapseScan r := rfl

theorem collapseScan_cons {c : Char} {rest : Str} (h : collapseAt (c :: rest) = none) :
    collapseScan (c :: rest) = c :: collapseScan rest := by
  have h1 : collapseScanF ((c :: rest).length + 1) (c :: rest) =
      c :: collapseScanF (c :: rest).length rest := by
    simp only [collapseScanF, h]
  exact h1

/-- The first match of an extraction regex under the `m` flag: scan the
anchor positions left to right and return the first successful capture. -/
def extractScan (p : ShellPat) (name : Str) : Str → Bool → Option Str
  | [], bol => if bol then extractAt p name [] else none
  | c :: rest, bol =>
    match (if bol then extractAt p name (c :: rest) else none) with
    | some v => some v
    | none => extractScan p name rest (c = nl)

theorem extractScan_nil (p : ShellPat) (name : Str) (bol : Bool) :
    extractScan p name [] bol = none := by
  have hnone : extractAt p name [] = none := by cases p <;> rfl
  cases bol <;> simp [extractScan, hnone]

theorem extractScan_true_some {p : ShellPat} {name s v : Str}
    (h : extractAt p name s = some v) :
    extractScan p name s true = some v := by
  cases s with
  | nil =>
    have hnone : extractAt p name [] = none := by cases p <;> rfl
    rw [hnone] at h
    exact absurd h (by simp)
  | cons c rest => simp [extractScan, h]

theorem extractScan_true_cons {p : ShellPat} {name : Str} {c : Char} {rest : Str}
    (h : extractAt p name (c :: rest) = none) :
    extractScan p name (c :: rest) true = extractScan p name rest (decide (c = nl)) := by
  simp [extractScan, h]

theorem extractScan_false_cons (p : ShellPat) (name : Str) (c : Char) (rest : Str) :
    extractScan p name (c :: rest) false = extractScan p name rest (decide (c = nl)) := by
  simp [extractScan]

/-!
## System state

The tool's observable state: the process environment (`process.env`), the
file system (path contents), the platform name (`os.platform()`) and the
home directory (`os.homedir()`).  All file-system operations of the source
are whole-file reads and writes, so files are modelled as a map from path
to optional content; `fs.existsSync` is content presence.  The try/catch
blocks around `fs` calls in the source only matter for I/O errors, which
this model does not produce.
-/

structure SysState where
  env : Str → Option Str
  files : Str → Option Str
  platform : Str
  home : Str

/-- Pointwise update of an association map. -/
def updateMap (m : Str → Option Str) (k : Str) (v : Option Str) : Str → Option Str :=
  fun q => if q = k then v else m q

/-- Node `path.basename` for POSIX paths as used by `detectShell`:
trailing slashes are ignored and the last path segment is returned
(`"/"` for an all-slash path, `""` for the empty path). -/
def basename (p : Str) : Str :=
  let r1 := p.reverse.dropWhile fun c => c = '/'
  if r1 = [] then (if p = [] then [] else ['/'])
  else (r1.takeWhile fun c => ¬ c = '/').reverse

/-- Node `path.join(home, file)` for the simple relative names used here. -/
def pathJoin (home f : Str) : Str := home ++ '/' :: f

namespace ShellDetector

/-- `detectShell` of shell-detector.js: the basename of `$SHELL` when that
variable is set and nonempty (JS truthiness), otherwise a per-platform
default (`cmd` on win32, `zsh` on darwin, `bash` elsewhere). -/
def detectShell (st : SysState) : Str :=
  match st.env (strL "SHELL") with
  | some p =>
    if p = [] then
      (if st.platform = strL "win32" then strL "cmd"
       else if st.platform = strL "darwin" then strL "zsh"
       else strL "bash")
    else basename p
  | none =>
    if st.platform = strL "win32" then strL "cmd"
    else if st.platform = strL "darwin" then strL "zsh"
    else strL "bash"

/-- The `shell = null` defaulting (`shell || this.detectShell()`) shared by
the ShellDetector entry points: an absent or empty (falsy) argument means
the detected shell. -/
def resolveShell (st : SysState) (shell : Option Str) : Str :=
  match shell with
  | some s => if s = [] then detectShell st else s
  | none => detectShell st

/-- The `configFiles` table shared by `getShellConfigPath` and
`getAllShellConfigPaths`; `configFiles[detectedShell] || ['.profile']`
(note the `cmd` entry is the empty array, which is truthy in JS). -/
def configFileNames (shell : Str) : List Str :=
  if shell = strL "bash" then [strL ".bashrc", strL ".bash_profile", strL ".profile"]
  else if shell = strL "zsh" then [strL ".zshrc", strL ".zprofile", strL ".profile"]
  else if shell = strL "fish" then [strL ".config/fish/config.fish"]
  else if shell = strL "cmd" then []
  else if shell = strL "powershell" then [strL "Documents/PowerShell/profile.ps1"]
  else [strL ".profile"]

/-- The existence loop of `getShellConfigPath`: the first candidate whose
joined path exists on disk. -/
def firstExistingPath (files : Str → Option Str) (home : Str) : List Str → Option Str
  | [] => none
  | f :: rest =>
    let full := pathJoin home f
    if (files full).isSome then some full else firstExistingPath files home rest

/-- `possibleFiles[0] || '.profile'` (an absent or empty head is falsy). -/
def headOrProfile : List Str → Str
  | [] => strL ".profile"
  | f :: _ => if f = [] then strL ".profile" else f

/-- `getShellConfigPath` of shell-detector.js. -/
def getShellConfigPath (st : SysState) (shell : Option Str) : Str :=
  let detectedShell := resolveShell st shell
  let possibleFiles := configFileNames detectedShell
  match firstExistingPath st.files st.home possibleFiles with
  | some full => full
  | none => pathJoin st.home (headOrProfile possibleFiles)

/-- `getAllShellConfigPaths` of shell-detector.js. -/
def getAllShellConfigPaths (st : SysState) (shell : Option Str) : List Str :=
  (configFileNames (resolveShell st shell)).map (pathJoin st.home)

/-- `supportsEnvPersistence` of shell-detector.js: every shell except
`cmd`. -/
def supportsEnvPersistence (st : SysState) (shell : Option Str) : Bool :=
  decide (¬ resolveShell st shell = strL "cmd")

/-- `getExportSyntax` of shell-detector.js (`syntaxMap[detectedShell] ||
'export'`). -/
def getExportSyntaxStr (st : SysState) (shell : Option Str) : Str :=
  let detectedShell := resolveShell st shell
  if detectedShell = strL "bash" then strL "export"
  else if detectedShell = strL "zsh" then strL "export"
  else if detectedShell = strL "fish" then strL "set -gx"
  else if detectedShell = strL "cmd" then strL "set"
  else if detectedShell = strL "powershell" then strL "$env:"
  else strL "export"

end ShellDetector

namespace Validator

/-- A hexadecimal digit (the `[0-9a-f]` class under the `i` flag). -/
def hexDigit (c : Char) : Bool :=
  decide ((48 ≤ c.toNat ∧ c.toNat ≤ 57) ∨ (97 ≤ c.toNat ∧ c.toNat ≤ 102) ∨
    (65 ≤ c.toNat ∧ c.toNat ≤ 70))

/-- `Validator.validateApiKey` of shell-detector.js (the Validator class):
a non-empty string that starts with `PMAK-` and has length at least 20.
(The `typeof apiKey !== 'string'` arm cannot arise in this typed model.) -/
def validateApiKey (apiKey : Str) : Bool :=
  if apiKey = [] then false
  else if ¬ (strL "PMAK-").isPrefixOf apiKey then false
  else if apiKey.length < 20 then false
  else true

/-- `Validator.validateWorkspaceId`: the UUID regex
`^[0-9a-f]{8}-[0-9a-f]{4}-[1-5][0-9a-f]{3}-[89ab][0-9a-f]{3}-[0-9a-f]{12}$`
with the `i` flag, written out over the five dash-separated groups. -/
def validateWorkspaceId (w : Str) : Bool :=
  match w.splitOn '-' with
  | [a, b, c, d, e] =>
    decide (a.length = 8) && decide (b.length = 4) && decide (c.length = 4) &&
    decide (d.length = 4) && decide (e.length = 12) &&
    a.all hexDigit && b.all hexDigit && (c.drop 1).all hexDigit &&
    (d.drop 1).all hexDigit && e.all hexDigit &&
    (match c with
     | v :: _ => decide (49 ≤ v.toNat ∧ v.toNat ≤ 53)
     | [] => false) &&
    (match d with
     | v :: _ => decide (v = '8' ∨ v = '9' ∨ v = 'a' ∨ v = 'b' ∨ v = 'A' ∨ v = 'B')
     | [] => false)
  | _ => false

end Validator

namespace ConfigFileManager

/-- `extractEnvVariable(content, variableName, shell)` of part_005:
the first (leftmost) match of the shell's extraction regex, or `null`. -/
def extractEnvVariable (content variableName shell : Str) : Option Str :=
  extractScan (patFor shell) variableName content true

/-- The `removeEnvVariable` that the class actually exposes.  The source
defines two static methods with this name (lines 129 and 183 of part_005);
in a JavaScript class body the later definition overwrites the earlier
one, so every call — including the one-argument calls
`removeEnvVariable(variableName)` made by CredentialStorage — dispatches
to the three-argument content transform, with missing arguments bound to
`undefined`.  An `undefined` variableName is interpolated into the
template-literal pattern as the literal text `undefined`, and
`patterns[undefined]` falls back to the bash pattern.  The transform
replaces every match of the removal regex with the empty string, then
collapses `\n\s*\n\s*\n` runs to `\n\n`. -/
def removeEnvVariable (content : Str) (variableName shell : Option Str) : Str :=
  let nameL := match variableName with
    | some n => n
    | none => strL "undefined"
  let p := match shell with
    | some s => patFor s
    | none => ShellPat.bash
  collapseScan (removeScan p nameL content true)

/-- The body of the `readEnvVariable` loop over candidate config paths:
for each existing file, extract; a truthy (nonempty) value is returned,
otherwise the next candidate is tried. -/
def readPaths (files : Str → Option Str) (paths : List Str) (variableName shell : Str) :
    Option Str :=
  match paths with
  | [] => none
  | p :: rest =>
    match files p with
    | some content =>
      match extractEnvVariable content variableName shell with
      | some v => if v = [] then readPaths files rest variableName shell else some v
      | none => readPaths files rest variableName shell
    | none => readPaths files rest variableName shell

/-- `readEnvVariable(variableName)` of part_005: the current process
environment first (`if (process.env[variableName])` — an empty string is
falsy and falls through), then each existing shell config file in
candidate order. -/
def readEnvVariable (st : SysState) (variableName : Str) : Option Str :=
  let fileRead :=
    readPaths st.files
      (ShellDetector.getAllShellConfigPaths st (some (ShellDetector.detectShell st)))
      variableName (ShellDetector.detectShell st)
  match st.env variableName with
  | some v => if v = [] then fileRead else some v
  | none => fileRead

/-- `writeEnvVariable(variableName, value, options)` of part_005.
Returns the JS boolean result together with the successor state.
The `fs.mkdirSync` call only creates directories and the try/catch only
matters for I/O errors, neither of which this model represents. -/
def writeEnvVariable (st : SysState) (variableName value : Str)
    (shell : Option Str) (comment : Option Str) (overwrite : Bool) : Bool × SysState :=
  let sh := ShellDetector.resolveShell st shell
  let cmt := match comment with
    | some c => c
    | none => strL "Added by flowman-cli"
  if ShellDetector.supportsEnvPersistence st (some sh) = false then (false, st)
  else
    let configPath := ShellDetector.getShellConfigPath st (some sh)
    let content := match st.files configPath with
      | some c => c
      | none => []
    let existingValue := extractEnvVariable content variableName sh
    let existingTruthy := match existingValue with
      | some v => decide (¬ v = [])
      | none => false
    if existingTruthy && !overwrite then (true, st)
    else
      let content1 := if existingTruthy then
          removeEnvVariable content (some variableName) (some sh)
        else content
      let exportLine :=
        if sh = strL "fish" then
          ShellDetector.getExportSyntaxStr st (some sh) ++ strL " " ++ variableName ++
            strL " \"" ++ value ++ strL "\""
        else if sh = strL "powershell" then
          ShellDetector.getExportSyntaxStr st (some sh) ++ variableName ++
            strL " = \"" ++ value ++ strL "\""
        else
          ShellDetector.getExportSyntaxStr st (some sh) ++ strL " " ++ variableName ++
            strL "=\"" ++ value ++ strL "\""
      let newContent := content1 ++
        (if ¬ content1 = [] ∧ ¬ content1.getLast? = some nl then [nl] else []) ++
        [nl] ++ strL "# " ++ cmt ++ [nl] ++ exportLine ++ [nl]
      (true, { st with files := updateMap st.files configPath (some newContent) })

/-- `hasEnvVariable` of part_005. -/
def hasEnvVariable (st : SysState) (variableName : Str) : Bool :=
  (readEnvVariable st variableName).isSome

end ConfigFileManager

namespace CredentialStorage

def POSTMAN_API_KEY : Str := strL "POSTMAN_API_KEY"

def POSTMAN_WORKSPACE_ID : Str := strL "POSTMAN_WORKSPACE_ID"

/-- `CredentialStorage.storeApiKey` of auth-manager.js: validate the
format; on success write the variable (overwrite, fixed comment) and
mirror it into the current process environment. -/
def storeApiKey (st : SysState) (apiKey : Str) : Bool × SysState :=
  if Validator.validateApiKey apiKey = false then (false, st)
  else
    let res := ConfigFileManager.writeEnvVariable st POSTMAN_API_KEY apiKey none
      (some (strL "Postman API Key for flowman-cli")) true
    if res.1 then
      (true, { res.2 with env := updateMap res.2.env POSTMAN_API_KEY (some apiKey) })
    else (false, res.2)

/-- `CredentialStorage.getApiKey`. -/
def getApiKey (st : SysState) : Option Str :=
  ConfigFileManager.readEnvVariable st POSTMAN_API_KEY

/-- `CredentialStorage.storeWorkspaceId`. -/
def storeWorkspaceId (st : SysState) (workspaceId : Str) : Bool × SysState :=
  if Validator.validateWorkspaceId workspaceId = false then (false, st)
  else
    let res := ConfigFileManager.writeEnvVariable st POSTMAN_WORKSPACE_ID workspaceId none
      (some (strL "Postman Workspace ID for flowman-cli")) true
    if res.1 then
      (true, { res.2 with env := updateMap res.2.env POSTMAN_WORKSPACE_ID (some workspaceId) })
    else (false, res.2)

/-- `CredentialStorage.getWorkspaceId`. -/
def getWorkspaceId (st : SysState) : Option Str :=
  ConfigFileManager.readEnvVariable st POSTMAN_WORKSPACE_ID

/-- `CredentialStorage.hasApiKey`. -/
def hasApiKey (st : SysState) : Bool :=
  ConfigFileManager.hasEnvVariable st POSTMAN_API_KEY

/-- `CredentialStorage.clearCredentials` of auth-manager.js.  Because the
one-argument `ConfigFileManager.removeEnvVariable(name)` calls dispatch to
the surviving three-argument content transform (see
`ConfigFileManager.removeEnvVariable`), `apiKeyRemoved` and
`workspaceIdRemoved` are the transform applied to the variable NAME as
content — a nonempty, hence truthy, string — and no file is touched.
Only the `delete process.env[...]` statements change state. -/
def clearCredentials (st : SysState) : Bool × SysState :=
  let apiKeyRemoved := ConfigFileManager.removeEnvVariable POSTMAN_API_KEY none none
  let workspaceIdRemoved := ConfigFileManager.removeEnvVariable POSTMAN_WORKSPACE_ID none none
  let st1 := { st with
    env := updateMap (updateMap st.env POSTMAN_API_KEY none) POSTMAN_WORKSPACE_ID none }
  if ¬ apiKeyRemoved = [] ∧ ¬ workspaceIdRemoved = [] then (true, st1)
  else if ¬ apiKeyRemoved = [] ∨ ¬ workspaceIdRemoved = [] then (true, st1)
  else (false, st1)

/-- `CredentialStorage.getAllCredentials`. -/
def getAllCredentials (st : SysState) : Option Str × Option Str :=
  (getApiKey st, getWorkspaceId st)

/-- `CredentialStorage.isAuthenticated`. -/
def isAuthenticated (st : SysState) : Bool :=
  hasApiKey st && decide (¬ getApiKey st = none)

/-- `CredentialStorage.storeCredentials({apiKey, workspaceId})`:
store each truthy field in turn, conjoining the results. -/
def storeCredentials (st : SysState) (apiKey workspaceId : Option Str) : Bool × SysState :=
  let r1 := match apiKey with
    | some k => if k = [] then (true, st) else storeApiKey st k
    | none => (true, st)
  let r2 := match workspaceId with
    | some w => if w = [] then (true, r1.2) else
        (let r := storeWorkspaceId r1.2 w
         (r.1 && r1.1, r.2))
    | none => r1
  r2

/-- `CredentialStorage.validateStoredApiKey`. -/
def validateStoredApiKey (st : SysState) : Bool :=
  match getApiKey st with
  | some k => if k = [] then false else Validator.validateApiKey k
  | none => false

end CredentialStorage

namespace AuthManager

/-- `AuthManager.validateCredentials`, with the external
`PostmanClient.validateApiKey` network call abstracted as the boolean
oracle `remoteValid` (spec §6: remote validation collaborator). -/
def validateCredentials (st : SysState) (remoteValid : Str → Bool) : Bool :=
  match CredentialStorage.getApiKey st with
  | some k => if k = [] then false else remoteValid k
  | none => false

/-- `AuthManager.authenticateWithApiKey(apiKey, workspaceId)`:
store, then remote-validate; on remote rejection clear the just-written
credentials and report failure. -/
def authenticateWithApiKey (st : SysState) (apiKey : Str) (workspaceId : Option Str)
    (remoteValid : Str → Bool) : Bool × SysState :=
  let stored := CredentialStorage.storeCredentials st (some apiKey) workspaceId
  if stored.1 = false then (false, stored.2)
  else if validateCredentials stored.2 remoteValid = false then
    (false, (CredentialStorage.clearCredentials stored.2).2)
  else (true, stored.2)

/-- `AuthManager.logout`. -/
def logout (st : SysState) : Bool × SysState :=
  CredentialStorage.clearCredentials st

/-- `AuthManager.maskApiKey`: `****` for a falsy or short key, otherwise
the first 8 characters, one `*` per character beyond 12, and the last 4
characters. -/
def maskApiKey (apiKey : Str) : Str :=
  if apiKey = [] ∨ apiKey.length < 8 then strL "****"
  else apiKey.take 8 ++ List.replicate (apiKey.length - 12) '*' ++
    apiKey.drop (apiKey.length - 4)

end AuthManager

/-!
## Spec-side notions

Predicates taken from the specification's vocabulary (valid variable
names, values, the fresh state used by the scenario properties) — these
are not translations of source functions. -/

/-- A shell-variable-name character: ASCII letter, digit or underscore
(spec §3: names uniquely identifiable on a full-token boundary). -/
def nameChar (c : Char) : Prop :=
  (97 ≤ c.toNat ∧ c.toNat ≤ 122) ∨ (65 ≤ c.toNat ∧ c.toNat ≤ 90) ∨
  (48 ≤ c.toNat ∧ c.toNat ≤ 57) ∨ c.toNat = 95

instance (c : Char) : Decidable (nameChar c) := by
  unfold nameChar
  infer_instance

/-- A valid variable name: nonempty, made of name characters. -/
def validName (n : Str) : Prop := ¬ n = [] ∧ ∀ c ∈ n, nameChar c

instance (n : Str) : Decidable (validName n) := by
  unfold validName
  infer_instance

/-- A value free of quote and newline characters (spaces allowed). -/
def plainValue (v : Str) : Prop := ¬ v = [] ∧ ∀ c ∈ v, ¬ c = '"' ∧ ¬ c = squote ∧ ¬ c = nl

instance (v : Str) : Decidable (plainValue v) := by
  unfold plainValue
  infer_instance

/-- A single-line comment text. -/
def plainComment (c : Str) : Prop := ∀ ch ∈ c, ¬ ch = nl

instance (c : Str) : Decidable (plainComment c) := by
  unfold plainComment
  infer_instance

/-- A fresh single-user state: `$SHELL` set to the given path, no files
yet, a Linux platform and a fixed home directory. -/
def freshState (shellPath : Str) : SysState :=
  { env := fun n => if n = strL "SHELL" then some shellPath else none,
    files := fun _ => none,
    platform := strL "linux",
    home := strL "/home/user" }

/-- The four supported persistent shells of the spec (§3 ShellKind,
excluding the unknown fallback). -/
def supportedShell (shell : Str) : Prop :=
  shell = strL "bash" ∨ shell = strL "zsh" ∨ shell = strL "fish" ∨ shell = strL "powershell"

instance (shell : Str) : Decidable (supportedShell shell) := by
  unfold supportedShell
  infer_instance

/-!
## C7 and C10: maskApiKey
-/

/-- C7: for every API key of length at least 12, `maskApiKey` returns a
string of the same length whose first 8 and last 4 characters are those
of the key and whose every character strictly between is the mask
character; for every key shorter than 8 it returns the fixed token
`****`. -/
theorem c7_maskApiKey (k : Str) :
    (12 ≤ k.length →
      (AuthManager.maskApiKey k).length = k.length ∧
      (AuthManager.maskApiKey k).take 8 = k.take 8 ∧
      (AuthManager.maskApiKey k).drop (k.length - 4) = k.drop (k.length - 4) ∧
      ∀ i, 8 ≤ i → i < k.length - 4 → (AuthManager.maskApiKey k).getD i 'x' = '*') ∧
    (k.length < 8 → AuthManager.maskApiKey k = strL "****") := by
  constructor
  · intro h12
    have hne : ¬ (k = [] ∨ k.length < 8) := by
      rintro (h | h)
      · rw [h] at h12
        simp at h12
      · omega
    rw [AuthManager.maskApiKey, if_neg hne]
    have hlt : (k.take 8).length = 8 := by
      rw [List.length_take]
      omega
    have hmid : (List.replicate (k.length - 12) '*').length = k.length - 12 :=
      List.length_replicate _ _
    have hdrop : (k.drop (k.length - 4)).length = 4 := by
      rw [List.length_drop]
      omega
    refine ⟨by simp [List.length_append, hlt, hmid, hdrop]; omega, ?_, ?_, ?_⟩
    · have htl := List.take_left (k.take 8) (List.replicate (k.length - 12) '*' ++ k.drop (k.length - 4))
      rw [hlt] at htl
      rw [List.append_assoc, htl]
    · have hlen2 : ((k.take 8) ++ List.replicate (k.length - 12) '*').length = k.length - 4 := by
        rw [List.length_append, hlt, hmid]
        omega
      rw [List.append_assoc, ← List.append_assoc, ← hlen2, List.drop_left]
    · intro i h8 hi4
      have hidx : (k.take 8 ++ (List.replicate (k.length - 12) '*' ++ k.drop (k.length - 4))).getD i 'x'
          = (List.replicate (k.length - 12) '*' ++ k.drop (k.length - 4)).getD (i - 8) 'x' := by
        rw [List.getD_append_right]
        · rw [hlt]
        · omega
      rw [List.append_assoc, hidx]
      have hrange : i - 8 < k.length - 12 := by omega
      rw [List.getD_append]
      · simp [List.getD_eq_getElem?_getD, hrange]
      · rw [hmid]
        omega
  · intro h8
    rw [AuthManager.maskApiKey, if_pos (Or.inr h8)]

/-- C7 witness at a 13-character key. -/
theorem c7_maskApiKey_witness :
    (AuthManager.maskApiKey (strL "PMAK-abcdefgh")).length = (strL "PMAK-abcdefgh").length ∧
    AuthManager.maskApiKey (strL "short") = strL "****" := by
  constructor
  · exact ((c7_maskApiKey (strL "PMAK-abcdefgh")).1 (by decide)).1
  · exact (c7_maskApiKey (strL "short")).2 (by decide)

/-- C10: for a key of length 8–11 the mask is the first 8 characters
directly followed by the last 4 — a 12-character result longer than the
key itself whose two overlapping segments cover every position of the
key. -/
theorem c10_maskApiKey_overlap (k : Str) (h8 : 8 ≤ k.length) (h11 : k.length ≤ 11) :
    AuthManager.maskApiKey k = k.take 8 ++ k.drop (k.length - 4) ∧
    (AuthManager.maskApiKey k).length = 12 ∧
    k.length < 12 ∧
    (∀ i, i < k.length → i < 8 ∨ k.length - 4 ≤ i) := by
  have hne : ¬ (k = [] ∨ k.length < 8) := by
    rintro (h | h)
    · rw [h] at h8
      simp at h8
    · omega
  have hz : k.length - 12 = 0 := by omega
  have hform : AuthManager.maskApiKey k = k.take 8 ++ k.drop (k.length - 4) := by
    rw [AuthManager.maskApiKey, if_neg hne, hz]
    simp
  refine ⟨hform, ?_, by omega, fun i hi => by omega⟩
  rw [hform, List.length_append, List.length_take, List.length_drop]
  omega

/-- C10 witness at a 9-character key. -/
theorem c10_maskApiKey_overlap_witness :
    AuthManager.maskApiKey (strL "abcdefghi") =
      (strL "abcdefghi").take 8 ++ (strL "abcdefghi").drop 5 :=
  (c10_maskApiKey_overlap (strL "abcdefghi") (by decide) (by decide)).1
/-!
## Matcher lemmas

Facts about the embedded regex matchers needed for the persistence
properties, with symbolic variable names, values and comments. -/

theorem char_eq_iff_toNat {a b : Char} : a = b ↔ a.toNat = b.toNat :=
  ⟨fun h => by rw [h], fun h => Char.ext (UInt32.toNat.inj h)⟩

theorem nameChar_facts {c : Char} (h : nameChar c) :
    jsSpace c = false ∧ ¬ c = '=' ∧ ¬ c = '"' ∧ ¬ c = squote ∧ ¬ c = nl ∧
    ¬ c = '#' ∧ ¬ c = '$' ∧ ¬ c = '-' ∧ ¬ c = ' ' ∧ ¬ c = ':' ∧ ¬ c = '/' := by
  unfold nameChar at h
  refine ⟨?_, ?_, ?_, ?_, ?_, ?_, ?_, ?_, ?_, ?_, ?_⟩
  · unfold jsSpace
    simp only [decide_eq_false_iff_not]
    omega
  all_goals
    intro heq
    rw [heq] at h
    exact absurd h (by decide)

theorem matchLit_self_append (l r : Str) : matchLit l (l ++ r) = some r := by
  induction l with
  | nil => rfl
  | cons a ps ih => simp [matchLit, ih]

theorem matchLit_append_split (a b s : Str) :
    matchLit (a ++ b) s = (matchLit a s).bind (matchLit b) := by
  induction a generalizing s with
  | nil => simp [matchLit]
  | cons x xs ih =>
    cases s with
    | nil => simp [matchLit]
    | cons c cs =>
      by_cases hx : x = c
      · simp [matchLit, hx, ih]
      · simp [matchLit, hx]

theorem matchLit_head_ne {a : Char} {p : Str} {c : Char} {s : Str} (h : ¬ a = c) :
    matchLit (a :: p) (c :: s) = none := by
  simp [matchLit, h]

theorem matchLit_cons_nil (a : Char) (p : Str) : matchLit (a :: p) [] = none := rfl

theorem takeWhile_all_append {pred : Char → Bool} {l : Str} (w : Str)
    (h : ∀ c ∈ l, pred c = true) :
    (l ++ w).takeWhile pred = l ++ w.takeWhile pred := by
  induction l with
  | nil => simp
  | cons c cs ih =>
    have hc : pred c = true := h c (by simp)
    simp [List.takeWhile_cons, hc]
    exact ih fun x hx => h x (by simp [hx])

theorem spaceSuffixes_nonspace {c : Char} (rest : Str) (h : jsSpace c = false) :
    spaceSuffixes (c :: rest) = [c :: rest] := by
  simp [spaceSuffixes, h]

theorem spaceSuffixes_space {c : Char} (rest : Str) (h : jsSpace c = true) :
    spaceSuffixes (c :: rest) = spaceSuffixes rest ++ [c :: rest] := by
  simp [spaceSuffixes, h]

theorem spacePlusSuffixes_space {c : Char} (rest : Str) (h : jsSpace c = true) :
    spacePlusSuffixes (c :: rest) = spaceSuffixes rest := by
  simp [spacePlusSuffixes, h]

/-- `captureValue` on a double-quoted plain value: the quote is consumed,
the capture is the maximal run, which is exactly the value. -/
theorem captureValue_quoted {v : Str} (r : Str) (hv : plainValue v) :
    captureValue ('"' :: (v ++ ('"' :: r))) = some v := by
  have hrun : List.takeWhile (fun c => decide (¬ (c = '"' ∨ c = squote ∨ c = nl)))
      (v ++ ('"' :: r)) = v := by
    rw [takeWhile_all_append]
    · simp [List.takeWhile_cons]
    · intro c hc
      rcases hv.2 c hc with ⟨h1, h2, h3⟩
      simp [h1, h2, h3]
  show (if List.takeWhile (fun c => decide (¬ (c = '"' ∨ c = squote ∨ c = nl)))
      (v ++ ('"' :: r)) = ([] : Str) then none
    else some (List.takeWhile (fun c => decide (¬ (c = '"' ∨ c = squote ∨ c = nl)))
      (v ++ ('"' :: r)))) = some v
  rw [hrun, if_neg hv.1]

theorem firstSome_singleton {α β : Type} (f : β → Option α) (a : β) :
    firstSome f [a] = f a := by
  cases h : f a <;> simp [firstSome, h]

theorem matchLit_export_ne {c : Char} (rest : Str) (he : ¬ c = 'e') :
    matchLit (strL "export") (c :: rest) = none := by
  show matchLit ('e' :: strL "xport") (c :: rest) = none
  exact matchLit_head_ne fun hh => he hh.symm

theorem matchLit_set_ne {c : Char} (rest : Str) (hs : ¬ c = 's') :
    matchLit (strL "set") (c :: rest) = none := by
  show matchLit ('s' :: strL "et") (c :: rest) = none
  exact matchLit_head_ne fun hh => hs hh.symm

theorem matchLit_denv_ne {c : Char} (rest : Str) (hd : ¬ c = '$') :
    matchLit (strL "$env:") (c :: rest) = none := by
  show matchLit ('$' :: strL "env:") (c :: rest) = none
  exact matchLit_head_ne fun hh => hd hh.symm

/-- No extraction match can start at a position whose first character is
not whitespace and not the first letter of the shell's keyword. -/
theorem extractAt_head_fail {p : ShellPat} {n : Str} {c : Char} (rest : Str)
    (hsp : jsSpace c = false) (he : ¬ c = 'e') (hs : ¬ c = 's') (hd : ¬ c = '$') :
    extractAt p n (c :: rest) = none := by
  cases p with
  | bash =>
    rw [extractAt, spaceSuffixes_nonspace _ hsp, firstSome_singleton,
      matchLit_export_ne _ he]
    rfl
  | fish =>
    rw [extractAt, spaceSuffixes_nonspace _ hsp, firstSome_singleton,
      matchLit_set_ne _ hs]
    rfl
  | powershell =>
    rw [extractAt, spaceSuffixes_nonspace _ hsp, firstSome_singleton,
      matchLit_denv_ne _ hd]
    rfl

theorem removeAt_head_fail {p : ShellPat} {n : Str} {c : Char} (rest : Str)
    (hsp : jsSpace c = false) (he : ¬ c = 'e') (hs : ¬ c = 's') (hd : ¬ c = '$') :
    removeAt p n (c :: rest) = none := by
  cases p with
  | bash =>
    rw [removeAt, spaceSuffixes_nonspace _ hsp, firstSome_singleton,
      matchLit_export_ne _ he]
    rfl
  | fish =>
    rw [removeAt, spaceSuffixes_nonspace _ hsp, firstSome_singleton,
      matchLit_set_ne _ hs]
    rfl
  | powershell =>
    rw [removeAt, spaceSuffixes_nonspace _ hsp, firstSome_singleton,
      matchLit_denv_ne _ hd]
    rfl

theorem jsSpace_nl : jsSpace nl = true := by decide

/-- A failing extraction position stays failing under a prepended
newline: the greedy `\s*` alternatives at the newline are exactly the
alternatives one character later, plus the one keeping the newline, and a
keyword cannot start with a newline. -/
theorem extractAt_nl {p : ShellPat} {n : Str} {rest : Str}
    (h : extractAt p n rest = none) : extractAt p n (nl :: rest) = none := by
  have hnl : ∀ lit : Str, ∀ w : Str, (lit = strL "export" ∨ lit = strL "set" ∨ lit = strL "$env:") →
      matchLit lit (nl :: w) = none := by
    rintro lit w (hl | hl | hl) <;> subst hl
    · exact matchLit_export_ne _ (by decide)
    · exact matchLit_set_ne _ (by decide)
    · exact matchLit_denv_ne _ (by decide)
  cases p with
  | bash =>
    rw [extractAt, spaceSuffixes_space _ jsSpace_nl]
    rw [extractAt] at h
    refine firstSome_eq_none.mpr fun a ha => ?_
    rcases List.mem_append.mp ha with ha | ha
    · exact firstSome_eq_none.mp h a ha
    · simp only [List.mem_singleton] at ha
      subst ha
      rw [hnl _ _ (Or.inl rfl)]
      rfl
  | fish =>
    rw [extractAt, spaceSuffixes_space _ jsSpace_nl]
    rw [extractAt] at h
    refine firstSome_eq_none.mpr fun a ha => ?_
    rcases List.mem_append.mp ha with ha | ha
    · exact firstSome_eq_none.mp h a ha
    · simp only [List.mem_singleton] at ha
      subst ha
      rw [hnl _ _ (Or.inr (Or.inl rfl))]
      rfl
  | powershell =>
    rw [extractAt, spaceSuffixes_space _ jsSpace_nl]
    rw [extractAt] at h
    refine firstSome_eq_none.mpr fun a ha => ?_
    rcases List.mem_append.mp ha with ha | ha
    · exact firstSome_eq_none.mp h a ha
    · simp only [List.mem_singleton] at ha
      subst ha
      rw [hnl _ _ (Or.inr (Or.inr rfl))]
      rfl

theorem removeAt_nl {p : ShellPat} {n : Str} {rest : Str}
    (h : removeAt p n rest = none) : removeAt p n (nl :: rest) = none := by
  have hnl : ∀ lit : Str, ∀ w : Str, (lit = strL "export" ∨ lit = strL "set" ∨ lit = strL "$env:") →
      matchLit lit (nl :: w) = none := by
    rintro lit w (hl | hl | hl) <;> subst hl
    · exact matchLit_export_ne _ (by decide)
    · exact matchLit_set_ne _ (by decide)
    · exact matchLit_denv_ne _ (by decide)
  cases p with
  | bash =>
    rw [removeAt, spaceSuffixes_space _ jsSpace_nl]
    rw [removeAt] at h
    refine firstSome_eq_none.mpr fun a ha => ?_
    rcases List.mem_append.mp ha with ha | ha
    · exact firstSome_eq_none.mp h a ha
    · simp only [List.mem_singleton] at ha
      subst ha
      rw [hnl _ _ (Or.inl rfl)]
      rfl
  | fish =>
    rw [removeAt, spaceSuffixes_space _ jsSpace_nl]
    rw [removeAt] at h
    refine firstSome_eq_none.mpr fun a ha => ?_
    rcases List.mem_append.mp ha with ha | ha
    · exact firstSome_eq_none.mp h a ha
    · simp only [List.mem_singleton] at ha
      subst ha
      rw [hnl _ _ (Or.inr (Or.inl rfl))]
      rfl
  | powershell =>
    rw [removeAt, spaceSuffixes_space _ jsSpace_nl]
    rw [removeAt] at h
    refine firstSome_eq_none.mpr fun a ha => ?_
    rcases List.mem_append.mp ha with ha | ha
    · exact firstSome_eq_none.mp h a ha
    · simp only [List.mem_singleton] at ha
      subst ha
      rw [hnl _ _ (Or.inr (Or.inr rfl))]
      rfl

/-! Walking the scanners over newline-free segments and over the comment
block that `writeEnvVariable` prepends to each export line. -/

theorem extractScan_skip_false {p : ShellPat} {n : Str} {l : Str} (t : Str)
    (hl : ∀ c ∈ l, ¬ c = nl) :
    extractScan p n (l ++ t) false = extractScan p n t false := by
  induction l with
  | nil => rfl
  | cons c cs ih =>
    have hc : ¬ c = nl := hl c (by simp)
    rw [List.cons_append, extractScan_false_cons, decide_eq_false hc]
    exact ih fun x hx => hl x (by simp [hx])

theorem removeScan_skip_false {p : ShellPat} {n : Str} {l : Str} (t : Str)
    (hl : ∀ c ∈ l, ¬ c = nl) :
    removeScan p n (l ++ t) false = l ++ removeScan p n t false := by
  induction l with
  | nil => rfl
  | cons c cs ih =>
    have hc : ¬ c = nl := hl c (by simp)
    rw [List.cons_append, removeScan_false_cons, decide_eq_false hc, List.cons_append]
    rw [ih fun x hx => hl x (by simp [hx])]

theorem collapseAt_not_nl {c : Char} (w : Str) (h : ¬ c = nl) :
    collapseAt (c :: w) = none := by
  rw [collapseAt, matchLit_head_ne fun hh => h hh.symm]
  rfl

theorem collapseAt_nl_nonspace {c : Char} (w : Str) (hsp : jsSpace c = false) :
    collapseAt (nl :: c :: w) = none := by
  have hc : ¬ c = nl := by
    intro hh
    rw [hh] at hsp
    exact absurd hsp (by decide)
  rw [collapseAt, show matchLit [nl] (nl :: c :: w) = some (c :: w) from rfl]
  simp only [Option.some_bind]
  rw [spaceSuffixes_nonspace _ hsp, firstSome_singleton,
    matchLit_head_ne fun hh => hc hh.symm]
  rfl

theorem collapseAt_nl_nl_nonspace {c : Char} (w : Str) (hsp : jsSpace c = false) :
    collapseAt (nl :: nl :: c :: w) = none := by
  have hc : ¬ c = nl := by
    intro hh
    rw [hh] at hsp
    exact absurd hsp (by decide)
  rw [collapseAt, show matchLit [nl] (nl :: nl :: c :: w) = some (nl :: c :: w) from rfl]
  simp only [Option.some_bind]
  rw [spaceSuffixes_space _ jsSpace_nl, spaceSuffixes_nonspace _ hsp]
  refine firstSome_eq_none.mpr fun a ha => ?_
  rcases List.mem_append.mp ha with ha | ha
  · simp only [List.mem_singleton] at ha
    subst ha
    rw [matchLit_head_ne fun hh => hc hh.symm]
    rfl
  · simp only [List.mem_singleton] at ha
    subst ha
    rw [show matchLit [nl] (nl :: c :: w) = some (c :: w) from rfl]
    simp only [Option.some_bind]
    rw [spaceSuffixes_nonspace _ hsp, firstSome_singleton,
      matchLit_head_ne fun hh => hc hh.symm]

theorem collapseScan_skip {l : Str} (t : Str) (hl : ∀ c ∈ l, ¬ c = nl) :
    collapseScan (l ++ t) = l ++ collapseScan t := by
  induction l with
  | nil => rfl
  | cons c cs ih =>
    have hc : ¬ c = nl := hl c (by simp)
    rw [List.cons_append, collapseScan_cons (collapseAt_not_nl _ hc), List.cons_append]
    rw [ih fun x hx => hl x (by simp [hx])]

/-- Characters of the comment block: `#`, space and the comment text. -/
theorem commentChars_no_nl {cmt : Str} (hcmt : plainComment cmt) :
    ∀ c ∈ '#' :: ' ' :: cmt, ¬ c = nl := by
  intro c hc
  rcases List.mem_cons.mp hc with hc | hc
  · subst hc
    decide
  rcases List.mem_cons.mp hc with hc | hc
  · subst hc
    decide
  · exact hcmt c hc

/-- Extraction walks past a comment block: no match can start at the
leading blank line or inside `# <comment>`. -/
theorem extractScan_comment_block {p : ShellPat} {n cmt : Str} (t : Str)
    (hcmt : plainComment cmt) :
    extractScan p n (nl :: '#' :: ' ' :: (cmt ++ (nl :: t))) true =
      extractScan p n t true := by
  have hhash : extractAt p n ('#' :: ' ' :: (cmt ++ (nl :: t))) = none :=
    extractAt_head_fail _ (by decide) (by decide) (by decide) (by decide)
  have h0 : extractAt p n (nl :: '#' :: ' ' :: (cmt ++ (nl :: t))) = none :=
    extractAt_nl hhash
  rw [extractScan_true_cons h0, decide_eq_true (show nl = nl from rfl),
    extractScan_true_cons hhash, decide_eq_false (show ¬ '#' = nl by decide)]
  have hstep : ' ' :: (cmt ++ (nl :: t)) = (' ' :: cmt) ++ (nl :: t) := by simp
  rw [hstep, extractScan_skip_false (nl :: t) ?hnl]
  case hnl =>
    intro c hc
    rcases List.mem_cons.mp hc with hc | hc
    · subst hc
      decide
    · exact hcmt c hc
  rw [extractScan_false_cons, decide_eq_true (show nl = nl from rfl)]

/-- Removal walks past a comment block unchanged. -/
theorem removeScan_comment_block {p : ShellPat} {n cmt : Str} (t : Str)
    (hcmt : plainComment cmt) :
    removeScan p n (nl :: '#' :: ' ' :: (cmt ++ (nl :: t))) true =
      nl :: '#' :: ' ' :: (cmt ++ (nl :: removeScan p n t true)) := by
  have hhash : removeAt p n ('#' :: ' ' :: (cmt ++ (nl :: t))) = none :=
    removeAt_head_fail _ (by decide) (by decide) (by decide) (by decide)
  have h0 : removeAt p n (nl :: '#' :: ' ' :: (cmt ++ (nl :: t))) = none :=
    removeAt_nl hhash
  rw [removeScan_true_cons h0, decide_eq_true (show nl = nl from rfl),
    removeScan_true_cons hhash, decide_eq_false (show ¬ '#' = nl by decide)]
  have hstep : ' ' :: (cmt ++ (nl :: t)) = (' ' :: cmt) ++ (nl :: t) := by simp
  rw [hstep, removeScan_skip_false (nl :: t) ?hnl]
  case hnl =>
    intro c hc
    rcases List.mem_cons.mp hc with hc | hc
    · subst hc
      decide
    · exact hcmt c hc
  rw [removeScan_false_cons, decide_eq_true (show nl = nl from rfl)]
  simp

/-- Blank-line collapsing walks past a comment block whose following text
does not open a blank-line run (`collapseAt (nl :: t) = none`). -/
theorem collapseScan_comment_block {cmt : Str} (t : Str) (hcmt : plainComment cmt)
    (ht : collapseAt (nl :: t) = none) :
    collapseScan (nl :: '#' :: ' ' :: (cmt ++ (nl :: t))) =
      nl :: '#' :: ' ' :: (cmt ++ (nl :: collapseScan t)) := by
  have h0 : collapseAt (nl :: '#' :: ' ' :: (cmt ++ (nl :: t))) = none :=
    collapseAt_nl_nonspace _ (by decide)
  rw [collapseScan_cons h0, collapseScan_cons (collapseAt_not_nl _ (by decide)),
    collapseScan_cons (collapseAt_not_nl _ (by decide))]
  have hstep : cmt ++ (nl :: t) = cmt ++ (nl :: t) := rfl
  rw [collapseScan_skip (nl :: t) hcmt, collapseScan_cons ht]

/-!
## The shape of a write

`writeEnvVariable` with an explicit supported shell, comment and
`overwrite = true` always succeeds and replaces the canonical config file
with the transformed old content followed by the comment/export block.
The definitions below name the pieces of that shape. -/

/-- The `syntaxMap` of `getExportSyntax`, for an already resolved shell. -/
def syntaxWord (sh : Str) : Str :=
  if sh = strL "bash" then strL "export"
  else if sh = strL "zsh" then strL "export"
  else if sh = strL "fish" then strL "set -gx"
  else if sh = strL "cmd" then strL "set"
  else if sh = strL "powershell" then strL "$env:"
  else strL "export"

theorem getExportSyntaxStr_resolved (st : SysState) {sh : Str} (h : ¬ sh = []) :
    ShellDetector.getExportSyntaxStr st (some sh) = syntaxWord sh := by
  rw [ShellDetector.getExportSyntaxStr, ShellDetector.resolveShell, syntaxWord]
  simp [h]

/-- The export line `writeEnvVariable` generates, by shell. -/
def lineFor (sh n v : Str) : Str :=
  if sh = strL "fish" then syntaxWord sh ++ strL " " ++ n ++ strL " \"" ++ v ++ strL "\""
  else if sh = strL "powershell" then syntaxWord sh ++ n ++ strL " = \"" ++ v ++ strL "\""
  else syntaxWord sh ++ strL " " ++ n ++ strL "=\"" ++ v ++ strL "\""

/-- The separator newline added when the old content does not end in one. -/
def padNl (content1 : Str) : Str :=
  if ¬ content1 = [] ∧ ¬ content1.getLast? = some nl then [nl] else []

/-- The comment/export block appended by `writeEnvVariable`. -/
def writeBlock (sh n v cmt : Str) : Str :=
  [nl] ++ strL "# " ++ cmt ++ [nl] ++ lineFor sh n v ++ [nl]

/-- The content `writeEnvVariable` persists, as a function of the old
content: remove the existing line when present, pad, append the block. -/
def writeResultContent (sh n v cmt content : Str) : Str :=
  let existingTruthy := match ConfigFileManager.extractEnvVariable content n sh with
    | some v2 => decide (¬ v2 = [])
    | none => false
  let content1 := if existingTruthy then
      ConfigFileManager.removeEnvVariable content (some n) (some sh)
    else content
  content1 ++ padNl content1 ++ writeBlock sh n v cmt

theorem writeEnvVariable_run (st : SysState) (n v sh cmt : Str)
    (hsh : ¬ sh = []) (hcmd : ¬ sh = strL "cmd") :
    ConfigFileManager.writeEnvVariable st n v (some sh) (some cmt) true =
      (true,
       { st with
          files :=
            updateMap st.files (ShellDetector.getShellConfigPath st (some sh))
              (some (writeResultContent sh n v cmt
                ((st.files (ShellDetector.getShellConfigPath st (some sh))).getD []))) }) := by
  have hres : ShellDetector.resolveShell st (some sh) = sh := by
    rw [ShellDetector.resolveShell]
    simp [hsh]
  have hsupp : ShellDetector.supportsEnvPersistence st (some sh) = true := by
    rw [ShellDetector.supportsEnvPersistence, hres]
    simp [hcmd]
  rw [ConfigFileManager.writeEnvVariable, hres]
  rw [hsupp]
  simp only [Bool.true_eq_false, if_false]
  rw [writeResultContent]
  have hgetd : ∀ o : Option Str, (match o with | some c => c | none => []) = o.getD [] := by
    intro o
    cases o <;> rfl
  rw [hgetd]
  rw [getExportSyntaxStr_resolved st hsh]
  simp only [Bool.not_true, Bool.and_false, Bool.false_eq_true, if_false]
  rw [writeBlock, lineFor, padNl]
  by_cases hf : sh = strL "fish"
  · simp only [hf, if_pos]
    simp [strL, List.append_assoc]
  · by_cases hp : sh = strL "powershell"
    · simp only [hf, if_neg, hp, if_pos]
      simp [hf, strL, List.append_assoc]
    · simp only [hf, hp, if_neg]
      simp [hf, hp, strL, List.append_assoc]

/-!
## Matching the generated export lines

Positive and negative match results at a generated line, for each of the
three pattern families, with symbolic names and values. -/

theorem dropWhile_all_append {pred : Char → Bool} {l : Str} (w : Str)
    (h : ∀ c ∈ l, pred c = true) :
    (l ++ w).dropWhile pred = w.dropWhile pred := by
  induction l with
  | nil => simp
  | cons c cs ih =>
    have hc : pred c = true := h c (by simp)
    simp [List.dropWhile_cons, hc]
    exact ih fun x hx => h x (by simp [hx])

/-- `.*$` on a double-quoted plain value followed by a newline: the match
ends exactly at the newline. -/
theorem dropLine_quoted {v : Str} (t : Str) (hv : plainValue v) :
    dropLine ('"' :: (v ++ ('"' :: (nl :: t)))) = nl :: t := by
  rw [dropLine, List.dropWhile_cons]
  have h1 : (decide (¬ '"' = nl)) = true := by decide
  rw [h1]
  simp only [if_true]
  rw [dropWhile_all_append]
  · rw [List.dropWhile_cons]
    have h2 : (decide (¬ '"' = nl)) = true := by decide
    rw [h2]
    simp only [if_true]
    rw [List.dropWhile_cons]
    simp
  · intro c hc
    rcases hv.2 c hc with ⟨h1, h2, h3⟩
    simp [h3]

theorem validName_head {n : Str} (hn : validName n) :
    ∃ c cs, n = c :: cs ∧ nameChar c := by
  cases n with
  | nil => exact absurd rfl hn.1
  | cons c cs => exact ⟨c, cs, rfl, hn.2 c (by simp)⟩

theorem spaceSuffixes_name {n : Str} (w : Str) (hn : validName n) :
    spaceSuffixes (n ++ w) = [n ++ w] := by
  rcases validName_head hn with ⟨c, cs, hcc, hc⟩
  subst hcc
  rw [List.cons_append]
  exact spaceSuffixes_nonspace _ (nameChar_facts hc).1

/-- The bash/zsh extraction pattern at the generated bash line. -/
theorem extractAt_bash_line {n v : Str} (w : Str) (hn : validName n) (hv : plainValue v) :
    extractAt ShellPat.bash n (strL "export " ++ (n ++ ('=' :: ('"' :: (v ++ ('"' :: w)))))) =
      some v := by
  have hshape : strL "export " ++ (n ++ ('=' :: ('"' :: (v ++ ('"' :: w))))) =
      'e' :: (strL "xport " ++ (n ++ ('=' :: ('"' :: (v ++ ('"' :: w)))))) := rfl
  rw [extractAt, hshape, spaceSuffixes_nonspace _ (by decide), firstSome_singleton, ← hshape]
  have hmatch : strL "export " ++ (n ++ ('=' :: ('"' :: (v ++ ('"' :: w))))) =
      strL "export" ++ (' ' :: (n ++ ('=' :: ('"' :: (v ++ ('"' :: w)))))) := rfl
  rw [hmatch, matchLit_self_append]
  simp only [Option.some_bind]
  rw [spacePlusSuffixes_space _ (by decide), spaceSuffixes_name _ hn, firstSome_singleton,
    matchLit_self_append]
  simp only [Option.some_bind]
  have heq : ('=' :: ('"' :: (v ++ ('"' :: w)))) = strL "=" ++ ('"' :: (v ++ ('"' :: w))) := rfl
  rw [heq, matchLit_self_append]
  simp only [Option.some_bind]
  exact captureValue_quoted _ hv

/-- The bash/zsh removal pattern at the generated bash line: the match
consumes up to the end of the line. -/
theorem removeAt_bash_line {n : Str} (w : Str) (hn : validName n) :
    removeAt ShellPat.bash n (strL "export " ++ (n ++ ('=' :: w))) = some (dropLine w) := by
  have hshape : strL "export " ++ (n ++ ('=' :: w)) =
      'e' :: (strL "xport " ++ (n ++ ('=' :: w))) := rfl
  rw [removeAt, hshape, spaceSuffixes_nonspace _ (by decide), firstSome_singleton, ← hshape]
  have hmatch : strL "export " ++ (n ++ ('=' :: w)) =
      strL "export" ++ (' ' :: (n ++ ('=' :: w))) := rfl
  rw [hmatch, matchLit_self_append]
  simp only [Option.some_bind]
  rw [spacePlusSuffixes_space _ (by decide), spaceSuffixes_name _ hn, firstSome_singleton,
    matchLit_self_append]
  simp only [Option.some_bind]
  have heq : ('=' :: w) = strL "=" ++ w := rfl
  rw [heq, matchLit_self_append]
  rfl

/-- The fish extraction pattern at the generated fish line. -/
theorem extractAt_fish_line {n v : Str} (w : Str) (hn : validName n) (hv : plainValue v) :
    extractAt ShellPat.fish n (strL "set -gx " ++ (n ++ (' ' :: ('"' :: (v ++ ('"' :: w)))))) =
      some v := by
  have hshape : strL "set -gx " ++ (n ++ (' ' :: ('"' :: (v ++ ('"' :: w))))) =
      's' :: (strL "et -gx " ++ (n ++ (' ' :: ('"' :: (v ++ ('"' :: w)))))) := rfl
  rw [extractAt, hshape, spaceSuffixes_nonspace _ (by decide), firstSome_singleton, ← hshape]
  have hmatch : strL "set -gx " ++ (n ++ (' ' :: ('"' :: (v ++ ('"' :: w))))) =
      strL "set" ++ (' ' :: ('-' :: ('g' :: ('x' :: (' ' :: (n ++ (' ' :: ('"' :: (v ++ ('"' :: w)))))))))) := rfl
  rw [hmatch, matchLit_self_append]
  simp only [Option.some_bind]
  rw [spacePlusSuffixes_space _ (by decide), spaceSuffixes_nonspace _ (by decide),
    firstSome_singleton]
  have hgx : ('-' :: ('g' :: ('x' :: (' ' :: (n ++ (' ' :: ('"' :: (v ++ ('"' :: w))))))))) =
      strL "-gx" ++ (' ' :: (n ++ (' ' :: ('"' :: (v ++ ('"' :: w)))))) := rfl
  rw [hgx, matchLit_self_append]
  simp only [Option.some_bind]
  rw [spacePlusSuffixes_space _ (by decide), spaceSuffixes_name _ hn, firstSome_singleton,
    matchLit_self_append]
  simp only [Option.some_bind]
  rw [spacePlusSuffixes_space _ (by decide), spaceSuffixes_nonspace _ (by decide),
    firstSome_singleton]
  exact captureValue_quoted _ hv

/-- The fish removal pattern at the generated fish line. -/
theorem removeAt_fish_line {n : Str} (w : Str) (hn : validName n) :
    removeAt ShellPat.fish n (strL "set -gx " ++ (n ++ (' ' :: ('"' :: w)))) =
      some (dropLine ('"' :: w)) := by
  have hshape : strL "set -gx " ++ (n ++ (' ' :: ('"' :: w))) =
      's' :: (strL "et -gx " ++ (n ++ (' ' :: ('"' :: w)))) := rfl
  rw [removeAt, hshape, spaceSuffixes_nonspace _ (by decide), firstSome_singleton, ← hshape]
  have hmatch : strL "set -gx " ++ (n ++ (' ' :: ('"' :: w))) =
      strL "set" ++ (' ' :: ('-' :: ('g' :: ('x' :: (' ' :: (n ++ (' ' :: ('"' :: w)))))))) := rfl
  rw [hmatch, matchLit_self_append]
  simp only [Option.some_bind]
  rw [spacePlusSuffixes_space _ (by decide), spaceSuffixes_nonspace _ (by decide),
    firstSome_singleton]
  have hgx : ('-' :: ('g' :: ('x' :: (' ' :: (n ++ (' ' :: ('"' :: w))))))) =
      strL "-gx" ++ (' ' :: (n ++ (' ' :: ('"' :: w)))) := rfl
  rw [hgx, matchLit_self_append]
  simp only [Option.some_bind]
  rw [spacePlusSuffixes_space _ (by decide), spaceSuffixes_name _ hn, firstSome_singleton,
    matchLit_self_append]
  simp only [Option.some_bind]
  rw [spacePlusSuffixes_space _ (by decide), spaceSuffixes_nonspace _ (by decide),
    firstSome_singleton]

/-- The powershell extraction pattern at the generated powershell line. -/
theorem extractAt_ps_line {n v : Str} (w : Str) (hv : plainValue v) :
    extractAt ShellPat.powershell n
      (strL "$env:" ++ (n ++ (' ' :: ('=' :: (' ' :: ('"' :: (v ++ ('"' :: w)))))))) =
      some v := by
  have hshape : strL "$env:" ++ (n ++ (' ' :: ('=' :: (' ' :: ('"' :: (v ++ ('"' :: w))))))) =
      '$' :: (strL "env:" ++ (n ++ (' ' :: ('=' :: (' ' :: ('"' :: (v ++ ('"' :: w)))))))) := rfl
  rw [extractAt, hshape, spaceSuffixes_nonspace _ (by decide), firstSome_singleton, ← hshape,
    matchLit_self_append]
  simp only [Option.some_bind]
  rw [matchLit_self_append]
  simp only [Option.some_bind]
  rw [spaceSuffixes_space _ (by decide), spaceSuffixes_nonspace _ (by decide)]
  rw [show ([('=' :: (' ' :: ('"' :: (v ++ ('"' :: w)))))] ++ [(' ' :: ('=' :: (' ' :: ('"' :: (v ++ ('"' :: w))))))]) =
    ('=' :: (' ' :: ('"' :: (v ++ ('"' :: w))))) :: [(' ' :: ('=' :: (' ' :: ('"' :: (v ++ ('"' :: w))))))] from rfl]
  rw [firstSome]
  have heqm : ('=' :: (' ' :: ('"' :: (v ++ ('"' :: w))))) =
      strL "=" ++ (' ' :: ('"' :: (v ++ ('"' :: w)))) := rfl
  rw [heqm, matchLit_self_append]
  simp only [Option.some_bind]
  rw [spaceSuffixes_space _ (by decide), spaceSuffixes_nonspace _ (by decide)]
  rw [show ([('"' :: (v ++ ('"' :: w)))] ++ [(' ' :: ('"' :: (v ++ ('"' :: w))))]) =
    ('"' :: (v ++ ('"' :: w))) :: [(' ' :: ('"' :: (v ++ ('"' :: w))))] from rfl]
  rw [firstSome]
  rw [captureValue_quoted _ hv]

/-- The powershell removal pattern at the generated powershell line. -/
theorem removeAt_ps_line {n : Str} (w : Str) :
    removeAt ShellPat.powershell n (strL "$env:" ++ (n ++ (' ' :: ('=' :: w)))) =
      some (dropLine w) := by
  have hshape : strL "$env:" ++ (n ++ (' ' :: ('=' :: w))) =
      '$' :: (strL "env:" ++ (n ++ (' ' :: ('=' :: w)))) := rfl
  rw [removeAt, hshape, spaceSuffixes_nonspace _ (by decide), firstSome_singleton, ← hshape,
    matchLit_self_append]
  simp only [Option.some_bind]
  rw [matchLit_self_append]
  simp only [Option.some_bind]
  rw [spaceSuffixes_space _ (by decide), spaceSuffixes_nonspace _ (by decide)]
  rw [show ([('=' :: w)] ++ [(' ' :: ('=' :: w))]) = ('=' :: w) :: [(' ' :: ('=' :: w))] from rfl]
  rw [firstSome]
  have heqm : ('=' :: w) = strL "=" ++ w := rfl
  rw [heqm, matchLit_self_append]
  rfl

theorem removeAt_nil (p : ShellPat) (n : Str) : removeAt p n [] = none := by
  cases p <;> rfl

theorem extractAt_nil (p : ShellPat) (n : Str) : extractAt p n [] = none := by
  cases p <;> rfl

/-!
Negative matches: a query name that is a proper prefix of the line's
name, or properly extends it, never matches — the patterns demand `=`
(bash, powershell) or whitespace (fish) right after the name. -/

theorem extractAt_bash_prefix1 {n1 : Str} {c : Char} (cs w : Str)
    (hn1 : validName n1) (hc : nameChar c) :
    extractAt ShellPat.bash n1 (strL "export " ++ ((n1 ++ (c :: cs)) ++ ('=' :: w))) = none := by
  rw [List.append_assoc, List.cons_append]
  have hshape : strL "export " ++ (n1 ++ (c :: (cs ++ ('=' :: w)))) =
      'e' :: (strL "xport " ++ (n1 ++ (c :: (cs ++ ('=' :: w))))) := rfl
  rw [extractAt, hshape, spaceSuffixes_nonspace _ (by decide), firstSome_singleton, ← hshape]
  have hmatch : strL "export " ++ (n1 ++ (c :: (cs ++ ('=' :: w)))) =
      strL "export" ++ (' ' :: (n1 ++ (c :: (cs ++ ('=' :: w))))) := rfl
  rw [hmatch, matchLit_self_append]
  simp only [Option.some_bind]
  rw [spacePlusSuffixes_space _ (by decide), spaceSuffixes_name _ hn1, firstSome_singleton,
    matchLit_self_append]
  simp only [Option.some_bind]
  rw [show (strL "=") = ['='] from rfl, matchLit_head_ne fun hh => (nameChar_facts hc).2.1 hh.symm]
  rfl

theorem removeAt_bash_prefix1 {n1 : Str} {c : Char} (cs w : Str)
    (hn1 : validName n1) (hc : nameChar c) :
    removeAt ShellPat.bash n1 (strL "export " ++ ((n1 ++ (c :: cs)) ++ ('=' :: w))) = none := by
  rw [List.append_assoc, List.cons_append]
  have hshape : strL "export " ++ (n1 ++ (c :: (cs ++ ('=' :: w)))) =
      'e' :: (strL "xport " ++ (n1 ++ (c :: (cs ++ ('=' :: w))))) := rfl
  rw [removeAt, hshape, spaceSuffixes_nonspace _ (by decide), firstSome_singleton, ← hshape]
  have hmatch : strL "export " ++ (n1 ++ (c :: (cs ++ ('=' :: w)))) =
      strL "export" ++ (' ' :: (n1 ++ (c :: (cs ++ ('=' :: w))))) := rfl
  rw [hmatch, matchLit_self_append]
  simp only [Option.some_bind]
  rw [spacePlusSuffixes_space _ (by decide), spaceSuffixes_name _ hn1, firstSome_singleton,
    matchLit_self_append]
  simp only [Option.some_bind]
  rw [show (strL "=") = ['='] from rfl, matchLit_head_ne fun hh => (nameChar_facts hc).2.1 hh.symm]
  rfl

theorem extractAt_fish_prefix1 {n1 : Str} {c : Char} (cs w : Str)
    (hn1 : validName n1) (hc : nameChar c) :
    extractAt ShellPat.fish n1 (strL "set -gx " ++ ((n1 ++ (c :: cs)) ++ (' ' :: w))) = none := by
  rw [List.append_assoc, List.cons_append]
  have hshape : strL "set -gx " ++ (n1 ++ (c :: (cs ++ (' ' :: w)))) =
      's' :: (strL "et -gx " ++ (n1 ++ (c :: (cs ++ (' ' :: w))))) := rfl
  rw [extractAt, hshape, spaceSuffixes_nonspace _ (by decide), firstSome_singleton, ← hshape]
  have hmatch : strL "set -gx " ++ (n1 ++ (c :: (cs ++ (' ' :: w)))) =
      strL "set" ++ (' ' :: ('-' :: ('g' :: ('x' :: (' ' :: (n1 ++ (c :: (cs ++ (' ' :: w))))))))) := rfl
  rw [hmatch, matchLit_self_append]
  simp only [Option.some_bind]
  rw [spacePlusSuffixes_space _ (by decide), spaceSuffixes_nonspace _ (by decide),
    firstSome_singleton]
  have hgx : ('-' :: ('g' :: ('x' :: (' ' :: (n1 ++ (c :: (cs ++ (' ' :: w)))))))) =
      strL "-gx" ++ (' ' :: (n1 ++ (c :: (cs ++ (' ' :: w))))) := rfl
  rw [hgx, matchLit_self_append]
  simp only [Option.some_bind]
  rw [spacePlusSuffixes_space _ (by decide), spaceSuffixes_name _ hn1, firstSome_singleton,
    matchLit_self_append]
  simp only [Option.some_bind]
  rw [show spacePlusSuffixes (c :: (cs ++ (' ' :: w))) = [] from by
    simp [spacePlusSuffixes, (nameChar_facts hc).1]]
  rfl

theorem removeAt_fish_prefix1 {n1 : Str} {c : Char} (cs w : Str)
    (hn1 : validName n1) (hc : nameChar c) :
    removeAt ShellPat.fish n1 (strL "set -gx " ++ ((n1 ++ (c :: cs)) ++ (' ' :: w))) = none := by
  rw [List.append_assoc, List.cons_append]
  have hshape : strL "set -gx " ++ (n1 ++ (c :: (cs ++ (' ' :: w)))) =
      's' :: (strL "et -gx " ++ (n1 ++ (c :: (cs ++ (' ' :: w))))) := rfl
  rw [removeAt, hshape, spaceSuffixes_nonspace _ (by decide), firstSome_singleton, ← hshape]
  have hmatch : strL "set -gx " ++ (n1 ++ (c :: (cs ++ (' ' :: w)))) =
      strL "set" ++ (' ' :: ('-' :: ('g' :: ('x' :: (' ' :: (n1 ++ (c :: (cs ++ (' ' :: w))))))))) := rfl
  rw [hmatch, matchLit_self_append]
  simp only [Option.some_bind]
  rw [spacePlusSuffixes_space _ (by decide), spaceSuffixes_nonspace _ (by decide),
    firstSome_singleton]
  have hgx : ('-' :: ('g' :: ('x' :: (' ' :: (n1 ++ (c :: (cs ++ (' ' :: w)))))))) =
      strL "-gx" ++ (' ' :: (n1 ++ (c :: (cs ++ (' ' :: w))))) := rfl
  rw [hgx, matchLit_self_append]
  simp only [Option.some_bind]
  rw [spacePlusSuffixes_space _ (by decide), spaceSuffixes_name _ hn1, firstSome_singleton,
    matchLit_self_append]
  simp only [Option.some_bind]
  rw [show spacePlusSuffixes (c :: (cs ++ (' ' :: w))) = [] from by
    simp [spacePlusSuffixes, (nameChar_facts hc).1]]
  rfl

theorem extractAt_ps_prefix1 {n1 : Str} {c : Char} (cs w : Str) (hc : nameChar c) :
    extractAt ShellPat.powershell n1
      (strL "$env:" ++ ((n1 ++ (c :: cs)) ++ (' ' :: ('=' :: w)))) = none := by
  rw [List.append_assoc, List.cons_append]
  have hshape : strL "$env:" ++ (n1 ++ (c :: (cs ++ (' ' :: ('=' :: w))))) =
      '$' :: (strL "env:" ++ (n1 ++ (c :: (cs ++ (' ' :: ('=' :: w)))))) := rfl
  rw [extractAt, hshape, spaceSuffixes_nonspace _ (by decide), firstSome_singleton, ← hshape,
    matchLit_self_append]
  simp only [Option.some_bind]
  rw [matchLit_self_append]
  simp only [Option.some_bind]
  rw [spaceSuffixes_nonspace _ (nameChar_facts hc).1, firstSome_singleton]
  rw [show (strL "=") = ['='] from rfl, matchLit_head_ne fun hh => (nameChar_facts hc).2.1 hh.symm]
  rfl

theorem removeAt_ps_prefix1 {n1 : Str} {c : Char} (cs w : Str) (hc : nameChar c) :
    removeAt ShellPat.powershell n1
      (strL "$env:" ++ ((n1 ++ (c :: cs)) ++ (' ' :: ('=' :: w)))) = none := by
  rw [List.append_assoc, List.cons_append]
  have hshape : strL "$env:" ++ (n1 ++ (c :: (cs ++ (' ' :: ('=' :: w))))) =
      '$' :: (strL "env:" ++ (n1 ++ (c :: (cs ++ (' ' :: ('=' :: w)))))) := rfl
  rw [removeAt, hshape, spaceSuffixes_nonspace _ (by decide), firstSome_singleton, ← hshape,
    matchLit_self_append]
  simp only [Option.some_bind]
  rw [matchLit_self_append]
  simp only [Option.some_bind]
  rw [spaceSuffixes_nonspace _ (nameChar_facts hc).1, firstSome_singleton]
  rw [show (strL "=") = ['='] from rfl, matchLit_head_ne fun hh => (nameChar_facts hc).2.1 hh.symm]
  rfl

theorem extractAt_bash_prefix2 {n1 : Str} {c : Char} (cs w : Str)
    (hn1 : validName n1) (hc : nameChar c) :
    extractAt ShellPat.bash (n1 ++ (c :: cs)) (strL "export " ++ (n1 ++ ('=' :: w))) = none := by
  have hshape : strL "export " ++ (n1 ++ ('=' :: w)) =
      'e' :: (strL "xport " ++ (n1 ++ ('=' :: w))) := rfl
  rw [extractAt, hshape, spaceSuffixes_nonspace _ (by decide), firstSome_singleton, ← hshape]
  have hmatch : strL "export " ++ (n1 ++ ('=' :: w)) =
      strL "export" ++ (' ' :: (n1 ++ ('=' :: w))) := rfl
  rw [hmatch, matchLit_self_append]
  simp only [Option.some_bind]
  rw [spacePlusSuffixes_space _ (by decide), spaceSuffixes_name _ hn1, firstSome_singleton,
    matchLit_append_split, matchLit_self_append]
  simp only [Option.some_bind]
  rw [matchLit_head_ne fun hh => (nameChar_facts hc).2.1 hh]
  rfl

theorem extractAt_fish_prefix2 {n1 : Str} {c : Char} (cs w : Str)
    (hn1 : validName n1) (hc : nameChar c) :
    extractAt ShellPat.fish (n1 ++ (c :: cs)) (strL "set -gx " ++ (n1 ++ (' ' :: w))) = none := by
  have hshape : strL "set -gx " ++ (n1 ++ (' ' :: w)) =
      's' :: (strL "et -gx " ++ (n1 ++ (' ' :: w))) := rfl
  rw [extractAt, hshape, spaceSuffixes_nonspace _ (by decide), firstSome_singleton, ← hshape]
  have hmatch : strL "set -gx " ++ (n1 ++ (' ' :: w)) =
      strL "set" ++ (' ' :: ('-' :: ('g' :: ('x' :: (' ' :: (n1 ++ (' ' :: w))))))) := rfl
  rw [hmatch, matchLit_self_append]
  simp only [Option.some_bind]
  rw [spacePlusSuffixes_space _ (by decide), spaceSuffixes_nonspace _ (by decide),
    firstSome_singleton]
  have hgx : ('-' :: ('g' :: ('x' :: (' ' :: (n1 ++ (' ' :: w)))))) =
      strL "-gx" ++ (' ' :: (n1 ++ (' ' :: w))) := rfl
  rw [hgx, matchLit_self_append]
  simp only [Option.some_bind]
  rw [spacePlusSuffixes_space _ (by decide), spaceSuffixes_name _ hn1, firstSome_singleton,
    matchLit_append_split, matchLit_self_append]
  simp only [Option.some_bind]
  rw [matchLit_head_ne fun hh => (nameChar_facts hc).2.2.2.2.2.2.2.2.1 hh]
  rfl

theorem extractAt_ps_prefix2 {n1 : Str} {c : Char} (cs w : Str) (hc : nameChar c) :
    extractAt ShellPat.powershell (n1 ++ (c :: cs))
      (strL "$env:" ++ (n1 ++ (' ' :: ('=' :: w)))) = none := by
  have hshape : strL "$env:" ++ (n1 ++ (' ' :: ('=' :: w))) =
      '$' :: (strL "env:" ++ (n1 ++ (' ' :: ('=' :: w)))) := rfl
  rw [extractAt, hshape, spaceSuffixes_nonspace _ (by decide), firstSome_singleton, ← hshape,
    matchLit_self_append]
  simp only [Option.some_bind]
  rw [matchLit_append_split, matchLit_self_append]
  simp only [Option.some_bind]
  rw [matchLit_head_ne fun hh => (nameChar_facts hc).2.2.2.2.2.2.2.2.1 hh]
  rfl

/-! Reduction helpers for reads and the generated content shapes. -/

theorem readEnvVariable_no_env {st : SysState} {n : Str} (henv : st.env n = none) :
    ConfigFileManager.readEnvVariable st n =
      ConfigFileManager.readPaths st.files
        (ShellDetector.getAllShellConfigPaths st (some (ShellDetector.detectShell st)))
        n (ShellDetector.detectShell st) := by
  rw [ConfigFileManager.readEnvVariable, henv]

theorem readEnvVariable_env_some {st : SysState} {n v : Str}
    (henv : st.env n = some v) (hv : ¬ v = []) :
    ConfigFileManager.readEnvVariable st n = some v := by
  rw [ConfigFileManager.readEnvVariable, henv]
  simp [hv]

theorem writeBlock_shape (sh n v cmt : Str) :
    writeBlock sh n v cmt = nl :: '#' :: ' ' :: (cmt ++ (nl :: (lineFor sh n v ++ [nl]))) := by
  rw [writeBlock]
  rw [show (strL "# ") = ['#', ' '] from rfl]
  simp [List.append_assoc]

theorem writeResultContent_nil (sh n v cmt : Str) :
    writeResultContent sh n v cmt [] = writeBlock sh n v cmt := by
  rw [writeResultContent, ConfigFileManager.extractEnvVariable, extractScan_nil]
  simp [padNl]

theorem lineFor_bash_append (n v w : Str) :
    lineFor (strL "bash") n v ++ w =
      strL "export " ++ (n ++ ('=' :: ('"' :: (v ++ ('"' :: w))))) := by
  rw [lineFor, if_neg (by decide), if_neg (by decide), syntaxWord, if_pos rfl]
  rw [show (strL " ") = [' '] from rfl, show (strL "=\"") = ['=', '"'] from rfl,
    show (strL "\"") = ['"'] from rfl,
    show (strL "export ") = strL "export" ++ [' '] from rfl]
  simp [List.append_assoc]

theorem lineFor_zsh_append (n v w : Str) :
    lineFor (strL "zsh") n v ++ w =
      strL "export " ++ (n ++ ('=' :: ('"' :: (v ++ ('"' :: w))))) := by
  rw [lineFor, if_neg (by decide), if_neg (by decide), syntaxWord, if_neg (by decide), if_pos rfl]
  rw [show (strL " ") = [' '] from rfl, show (strL "=\"") = ['=', '"'] from rfl,
    show (strL "\"") = ['"'] from rfl,
    show (strL "export ") = strL "export" ++ [' '] from rfl]
  simp [List.append_assoc]

theorem lineFor_fish_append (n v w : Str) :
    lineFor (strL "fish") n v ++ w =
      strL "set -gx " ++ (n ++ (' ' :: ('"' :: (v ++ ('"' :: w))))) := by
  rw [lineFor, if_pos rfl, syntaxWord, if_neg (by decide), if_neg (by decide), if_pos rfl]
  rw [show (strL " ") = [' '] from rfl, show (strL " \"") = [' ', '"'] from rfl,
    show (strL "\"") = ['"'] from rfl,
    show (strL "set -gx ") = strL "set -gx" ++ [' '] from rfl]
  simp [List.append_assoc]

theorem lineFor_ps_append (n v w : Str) :
    lineFor (strL "powershell") n v ++ w =
      strL "$env:" ++ (n ++ (' ' :: ('=' :: (' ' :: ('"' :: (v ++ ('"' :: w))))))) := by
  rw [lineFor, if_neg (by decide), if_pos rfl, syntaxWord, if_neg (by decide), if_neg (by decide),
    if_neg (by decide), if_neg (by decide), if_pos rfl]
  rw [show (strL " = \"") = [' ', '=', ' ', '"'] from rfl, show (strL "\"") = ['"'] from rfl]
  simp [List.append_assoc]

theorem readPaths_cons_some {files : Str → Option Str} {p : Str} (rest : List Str)
    {n sh content v : Str}
    (hfile : files p = some content)
    (hex : ConfigFileManager.extractEnvVariable content n sh = some v)
    (hv : ¬ v = []) :
    ConfigFileManager.readPaths files (p :: rest) n sh = some v := by
  rw [ConfigFileManager.readPaths, hfile]
  simp [hex, hv]

/-!
## C3: write/read round trip
-/

/-- C3 (amended): for every supported shell, valid variable name (other
than the shell-detection variable SHELL itself) and non-empty value free
of quote and newline characters — including values containing spaces —
writing from a fresh state and then reading returns exactly the written
value.  (The unamended claim, over all non-empty values, fails for values
containing quotes: see the counterexample.) -/
theorem c3_round_trip (shell n v cmt : Str)
    (hshell : supportedShell shell) (hn : validName n) (hnsh : ¬ n = strL "SHELL")
    (hv : plainValue v) (hcmt : plainComment cmt) :
    (ConfigFileManager.writeEnvVariable (freshState (strL "/bin/" ++ shell)) n v (some shell)
        (some cmt) true).1 = true ∧
    ConfigFileManager.readEnvVariable
      (ConfigFileManager.writeEnvVariable (freshState (strL "/bin/" ++ shell)) n v (some shell)
        (some cmt) true).2 n = some v := by
  rcases hshell with hsh | hsh | hsh | hsh <;> subst hsh
  · -- bash
    have hw := writeEnvVariable_run (freshState (strL "/bin/" ++ strL "bash")) n v
      (strL "bash") cmt (by decide) (by decide)
    have hcfg : ShellDetector.getShellConfigPath (freshState (strL "/bin/" ++ strL "bash"))
        (some (strL "bash")) = strL "/home/user/.bashrc" := rfl
    rw [hcfg] at hw
    have hcontent : ((freshState (strL "/bin/" ++ strL "bash")).files
        (strL "/home/user/.bashrc")).getD [] = [] := rfl
    rw [hcontent, writeResultContent_nil] at hw
    rw [hw]
    refine ⟨rfl, ?_⟩
    have henv : ({ freshState (strL "/bin/" ++ strL "bash") with
        files := updateMap (freshState (strL "/bin/" ++ strL "bash")).files
          (strL "/home/user/.bashrc")
          (some (writeBlock (strL "bash") n v cmt)) } : SysState).env n = none := by
      show (freshState (strL "/bin/" ++ strL "bash")).env n = none
      simp [freshState, hnsh]
    rw [readEnvVariable_no_env henv]
    have hdet : ShellDetector.detectShell ({ freshState (strL "/bin/" ++ strL "bash") with
        files := updateMap (freshState (strL "/bin/" ++ strL "bash")).files
          (strL "/home/user/.bashrc")
          (some (writeBlock (strL "bash") n v cmt)) } : SysState) = strL "bash" := rfl
    rw [hdet]
    have hpaths : ShellDetector.getAllShellConfigPaths
        ({ freshState (strL "/bin/" ++ strL "bash") with
          files := updateMap (freshState (strL "/bin/" ++ strL "bash")).files
            (strL "/home/user/.bashrc")
            (some (writeBlock (strL "bash") n v cmt)) } : SysState) (some (strL "bash")) =
        [strL "/home/user/.bashrc", strL "/home/user/.bash_profile", strL "/home/user/.profile"] := rfl
    rw [hpaths]
    have hfile : ({ freshState (strL "/bin/" ++ strL "bash") with
        files := updateMap (freshState (strL "/bin/" ++ strL "bash")).files
          (strL "/home/user/.bashrc")
          (some (writeBlock (strL "bash") n v cmt)) } : SysState).files
        (strL "/home/user/.bashrc") = some (writeBlock (strL "bash") n v cmt) := rfl
    have hextract : ConfigFileManager.extractEnvVariable (writeBlock (strL "bash") n v cmt) n
        (strL "bash") = some v := by
      rw [ConfigFileManager.extractEnvVariable, writeBlock_shape,
        show patFor (strL "bash") = ShellPat.bash from rfl,
        extractScan_comment_block _ hcmt, lineFor_bash_append]
      exact extractScan_true_some (extractAt_bash_line [nl] hn hv)
    exact readPaths_cons_some _ hfile hextract hv.1
  · -- zsh
    have hw := writeEnvVariable_run (freshState (strL "/bin/" ++ strL "zsh")) n v
      (strL "zsh") cmt (by decide) (by decide)
    have hcfg : ShellDetector.getShellConfigPath (freshState (strL "/bin/" ++ strL "zsh"))
        (some (strL "zsh")) = strL "/home/user/.zshrc" := rfl
    rw [hcfg] at hw
    have hcontent : ((freshState (strL "/bin/" ++ strL "zsh")).files
        (strL "/home/user/.zshrc")).getD [] = [] := rfl
    rw [hcontent, writeResultContent_nil] at hw
    rw [hw]
    refine ⟨rfl, ?_⟩
    have henv : ({ freshState (strL "/bin/" ++ strL "zsh") with
        files := updateMap (freshState (strL "/bin/" ++ strL "zsh")).files
          (strL "/home/user/.zshrc")
          (some (writeBlock (strL "zsh") n v cmt)) } : SysState).env n = none := by
      show (freshState (strL "/bin/" ++ strL "zsh")).env n = none
      simp [freshState, hnsh]
    rw [readEnvVariable_no_env henv]
    have hdet : ShellDetector.detectShell ({ freshState (strL "/bin/" ++ strL "zsh") with
        files := updateMap (freshState (strL "/bin/" ++ strL "zsh")).files
          (strL "/home/user/.zshrc")
          (some (writeBlock (strL "zsh") n v cmt)) } : SysState) = strL "zsh" := rfl
    rw [hdet]
    have hpaths : ShellDetector.getAllShellConfigPaths
        ({ freshState (strL "/bin/" ++ strL "zsh") with
          files := updateMap (freshState (strL "/bin/" ++ strL "zsh")).files
            (strL "/home/user/.zshrc")
            (some (writeBlock (strL "zsh") n v cmt)) } : SysState) (some (strL "zsh")) =
        [strL "/home/user/.zshrc", strL "/home/user/.zprofile", strL "/home/user/.profile"] := rfl
    rw [hpaths]
    have hfile : ({ freshState (strL "/bin/" ++ strL "zsh") with
        files := updateMap (freshState (strL "/bin/" ++ strL "zsh")).files
          (strL "/home/user/.zshrc")
          (some (writeBlock (strL "zsh") n v cmt)) } : SysState).files
        (strL "/home/user/.zshrc") = some (writeBlock (strL "zsh") n v cmt) := rfl
    have hextract : ConfigFileManager.extractEnvVariable (writeBlock (strL "zsh") n v cmt) n
        (strL "zsh") = some v := by
      rw [ConfigFileManager.extractEnvVariable, writeBlock_shape,
        show patFor (strL "zsh") = ShellPat.bash from rfl,
        extractScan_comment_block _ hcmt, lineFor_zsh_append]
      exact extractScan_true_some (extractAt_bash_line [nl] hn hv)
    exact readPaths_cons_some _ hfile hextract hv.1
  · -- fish
    have hw := writeEnvVariable_run (freshState (strL "/bin/" ++ strL "fish")) n v
      (strL "fish") cmt (by decide) (by decide)
    have hcfg : ShellDetector.getShellConfigPath (freshState (strL "/bin/" ++ strL "fish"))
        (some (strL "fish")) = strL "/home/user/.config/fish/config.fish" := rfl
    rw [hcfg] at hw
    have hcontent : ((freshState (strL "/bin/" ++ strL "fish")).files
        (strL "/home/user/.config/fish/config.fish")).getD [] = [] := rfl
    rw [hcontent, writeResultContent_nil] at hw
    rw [hw]
    refine ⟨rfl, ?_⟩
    have henv : ({ freshState (strL "/bin/" ++ strL "fish") with
        files := updateMap (freshState (strL "/bin/" ++ strL "fish")).files
          (strL "/home/user/.config/fish/config.fish")
          (some (writeBlock (strL "fish") n v cmt)) } : SysState).env n = none := by
      show (freshState (strL "/bin/" ++ strL "fish")).env n = none
      simp [freshState, hnsh]
    rw [readEnvVariable_no_env henv]
    have hdet : ShellDetector.detectShell ({ freshState (strL "/bin/" ++ strL "fish") with
        files := updateMap (freshState (strL "/bin/" ++ strL "fish")).files
          (strL "/home/user/.config/fish/config.fish")
          (some (writeBlock (strL "fish") n v cmt)) } : SysState) = strL "fish" := rfl
    rw [hdet]
    have hpaths : ShellDetector.getAllShellConfigPaths
        ({ freshState (strL "/bin/" ++ strL "fish") with
          files := updateMap (freshState (strL "/bin/" ++ strL "fish")).files
            (strL "/home/user/.config/fish/config.fish")
            (some (writeBlock (strL "fish") n v cmt)) } : SysState) (some (strL "fish")) =
        [strL "/home/user/.config/fish/config.fish"] := rfl
    rw [hpaths]
    have hfile : ({ freshState (strL "/bin/" ++ strL "fish") with
        files := updateMap (freshState (strL "/bin/" ++ strL "fish")).files
          (strL "/home/user/.config/fish/config.fish")
          (some (writeBlock (strL "fish") n v cmt)) } : SysState).files
        (strL "/home/user/.config/fish/config.fish") =
        some (writeBlock (strL "fish") n v cmt) := rfl
    have hextract : ConfigFileManager.extractEnvVariable (writeBlock (strL "fish") n v cmt) n
        (strL "fish") = some v := by
      rw [ConfigFileManager.extractEnvVariable, writeBlock_shape,
        show patFor (strL "fish") = ShellPat.fish from rfl,
        extractScan_comment_block _ hcmt, lineFor_fish_append]
      exact extractScan_true_some (extractAt_fish_line [nl] hn hv)
    exact readPaths_cons_some _ hfile hextract hv.1
  · -- powershell
    have hw := writeEnvVariable_run (freshState (strL "/bin/" ++ strL "powershell")) n v
      (strL "powershell") cmt (by decide) (by decide)
    have hcfg : ShellDetector.getShellConfigPath (freshState (strL "/bin/" ++ strL "powershell"))
        (some (strL "powershell")) = strL "/home/user/Documents/PowerShell/profile.ps1" := rfl
    rw [hcfg] at hw
    have hcontent : ((freshState (strL "/bin/" ++ strL "powershell")).files
        (strL "/home/user/Documents/PowerShell/profile.ps1")).getD [] = [] := rfl
    rw [hcontent, writeResultContent_nil] at hw
    rw [hw]
    refine ⟨rfl, ?_⟩
    have henv : ({ freshState (strL "/bin/" ++ strL "powershell") with
        files := updateMap (freshState (strL "/bin/" ++ strL "powershell")).files
          (strL "/home/user/Documents/PowerShell/profile.ps1")
          (some (writeBlock (strL "powershell") n v cmt)) } : SysState).env n = none := by
      show (freshState (strL "/bin/" ++ strL "powershell")).env n = none
      simp [freshState, hnsh]
    rw [readEnvVariable_no_env henv]
    have hdet : ShellDetector.detectShell
        ({ freshState (strL "/bin/" ++ strL "powershell") with
          files := updateMap (freshState (strL "/bin/" ++ strL "powershell")).files
            (strL "/home/user/Documents/PowerShell/profile.ps1")
            (some (writeBlock (strL "powershell") n v cmt)) } : SysState) =
        strL "powershell" := rfl
    rw [hdet]
    have hpaths : ShellDetector.getAllShellConfigPaths
        ({ freshState (strL "/bin/" ++ strL "powershell") with
          files := updateMap (freshState (strL "/bin/" ++ strL "powershell")).files
            (strL "/home/user/Documents/PowerShell/profile.ps1")
            (some (writeBlock (strL "powershell") n v cmt)) } : SysState)
        (some (strL "powershell")) =
        [strL "/home/user/Documents/PowerShell/profile.ps1"] := rfl
    rw [hpaths]
    have hfile : ({ freshState (strL "/bin/" ++ strL "powershell") with
        files := updateMap (freshState (strL "/bin/" ++ strL "powershell")).files
          (strL "/home/user/Documents/PowerShell/profile.ps1")
          (some (writeBlock (strL "powershell") n v cmt)) } : SysState).files
        (strL "/home/user/Documents/PowerShell/profile.ps1") =
        some (writeBlock (strL "powershell") n v cmt) := rfl
    have hextract : ConfigFileManager.extractEnvVariable
        (writeBlock (strL "powershell") n v cmt) n (strL "powershell") = some v := by
      rw [ConfigFileManager.extractEnvVariable, writeBlock_shape,
        show patFor (strL "powershell") = ShellPat.powershell from rfl,
        extractScan_comment_block _ hcmt, lineFor_ps_append]
      exact extractScan_true_some (extractAt_ps_line [nl] hv)
    exact readPaths_cons_some _ hfile hextract hv.1

/-- C3 witness: bash, a value containing a space. -/
theorem c3_round_trip_witness :
    (ConfigFileManager.writeEnvVariable (freshState (strL "/bin/" ++ strL "bash"))
        (strL "API_KEY") (strL "a b") (some (strL "bash")) (some (strL "c")) true).1 = true ∧
    ConfigFileManager.readEnvVariable
      (ConfigFileManager.writeEnvVariable (freshState (strL "/bin/" ++ strL "bash"))
        (strL "API_KEY") (strL "a b") (some (strL "bash")) (some (strL "c")) true).2
      (strL "API_KEY") = some (strL "a b") :=
  c3_round_trip (strL "bash") (strL "API_KEY") (strL "a b") (strL "c")
    (Or.inl rfl) (by decide) (by decide) (by decide) (by decide)

/-- C3 counterexample: the claim as stated — for every valid name and
non-empty value — fails on the code in two ways.  A value containing a
double quote, a single quote or a newline does not round-trip: reading
back yields the text before that character, not the value.  And the name
`SHELL` does not round-trip: `readEnvVariable` consults the process
environment first, `writeEnvVariable` never updates it, and `$SHELL`
must be set to select the shell, so the write succeeds but the read
returns the stale `/bin/<shell>` value. -/
theorem c3_round_trip_counterexample :
    ConfigFileManager.readEnvVariable
        (ConfigFileManager.writeEnvVariable (freshState (strL "/bin/bash")) (strL "API_KEY")
          (strL "a\"b") (some (strL "bash")) (some (strL "c")) true).2 (strL "API_KEY")
      = some (strL "a") ∧
    ¬ strL "a" = strL "a\"b" ∧
    ConfigFileManager.readEnvVariable
        (ConfigFileManager.writeEnvVariable (freshState (strL "/bin/bash")) (strL "API_KEY")
          ('a' :: squote :: ['b']) (some (strL "bash")) (some (strL "c")) true).2 (strL "API_KEY")
      = some (strL "a") ∧
    ¬ strL "a" = 'a' :: squote :: ['b'] ∧
    ConfigFileManager.readEnvVariable
        (ConfigFileManager.writeEnvVariable (freshState (strL "/bin/bash")) (strL "API_KEY")
          ('a' :: nl :: ['b']) (some (strL "bash")) (some (strL "c")) true).2 (strL "API_KEY")
      = some (strL "a") ∧
    ¬ strL "a" = 'a' :: nl :: ['b'] ∧
    ConfigFileManager.readEnvVariable
        (ConfigFileManager.writeEnvVariable (freshState (strL "/bin/fish")) (strL "SHELL")
          (strL "v") (some (strL "fish")) (some (strL "c")) true).2 (strL "SHELL")
      = some (strL "/bin/fish") ∧
    ¬ strL "/bin/fish" = strL "v" := by
  refine ⟨by decide, by decide, by decide, by decide, by decide, by decide,
    by decide, by decide⟩

/-!
## Lines of a config file

Spec-side notions for counting assignment lines: the file's lines, and
whether a single line is an assignment line for a name (it matches the
shell's removal pattern). -/

/-- Split on newlines (every string has at least one line). -/
def splitLines : Str → List Str
  | [] => [[]]
  | c :: rest =>
    if c = nl then [] :: splitLines rest
    else
      match splitLines rest with
      | l :: ls => (c :: l) :: ls
      | [] => [[c]]

/-- A line that the shell's removal pattern matches, i.e. an assignment
line for `n`. -/
def isAssignLine (shell n line : Str) : Bool :=
  (removeAt (patFor shell) n line).isSome

/-- How many of the file's lines are assignment lines for `n`. -/
def countAssignLines (shell n content : Str) : Nat :=
  (splitLines content).countP (isAssignLine shell n)

/-- The canonical (first-candidate) config path for a shell under the
fixed home directory of `freshState`. -/
def primaryPath (shell : Str) : Str :=
  pathJoin (strL "/home/user") (ShellDetector.headOrProfile (ShellDetector.configFileNames shell))

theorem splitLines_cons_nl (rest : Str) : splitLines (nl :: rest) = [] :: splitLines rest := by
  simp [splitLines]

theorem splitLines_ne_nil (s : Str) : ¬ splitLines s = [] := by
  induction s with
  | nil => simp [splitLines]
  | cons c rest ih =>
    by_cases hc : c = nl
    · simp [splitLines, hc]
    · rw [splitLines, if_neg hc]
      cases h : splitLines rest with
      | nil => simp
      | cons l ls => simp

theorem splitLines_append_noNl {l : Str} (t : Str) (hl : ∀ c ∈ l, ¬ c = nl) :
    splitLines (l ++ (nl :: t)) = l :: splitLines t := by
  induction l with
  | nil => simp [splitLines_cons_nl]
  | cons c cs ih =>
    have hc : ¬ c = nl := hl c (by simp)
    rw [List.cons_append, splitLines, if_neg hc, ih fun x hx => hl x (by simp [hx])]

theorem updateMap_same (m : Str → Option Str) (k : Str) (v : Option Str) :
    updateMap m k v k = v := by
  simp [updateMap]

theorem supportedShell_facts {shell : Str} (h : supportedShell shell) :
    ¬ shell = [] ∧ ¬ shell = strL "cmd" := by
  rcases h with h | h | h | h <;> subst h <;> exact ⟨by decide, by decide⟩

/-- Detection from the fresh state: `$SHELL = /bin/<shell>`. -/
theorem detectShell_fresh {shell : Str} (h : supportedShell shell) :
    ShellDetector.detectShell (freshState (strL "/bin/" ++ shell)) = shell := by
  rcases h with h | h | h | h <;> subst h <;> rfl

/-- The candidate path list starts with the canonical path, and the later
candidates are different paths. -/
theorem paths_full {shell : Str} (h : supportedShell shell) (st : SysState)
    (hhome : st.home = strL "/home/user") :
    ∃ rest, ShellDetector.getAllShellConfigPaths st (some shell) = primaryPath shell :: rest ∧
      ∀ p ∈ rest, ¬ p = primaryPath shell := by
  have hres : ShellDetector.resolveShell st (some shell) = shell := by
    rw [ShellDetector.resolveShell]
    simp [(supportedShell_facts h).1]
  rcases h with h | h | h | h <;> subst h
  · refine ⟨[pathJoin (strL "/home/user") (strL ".bash_profile"),
      pathJoin (strL "/home/user") (strL ".profile")], ?_, by decide⟩
    rw [ShellDetector.getAllShellConfigPaths, hres, hhome]
    decide
  · refine ⟨[pathJoin (strL "/home/user") (strL ".zprofile"),
      pathJoin (strL "/home/user") (strL ".profile")], ?_, by decide⟩
    rw [ShellDetector.getAllShellConfigPaths, hres, hhome]
    decide
  · refine ⟨[], ?_, by decide⟩
    rw [ShellDetector.getAllShellConfigPaths, hres, hhome]
    decide
  · refine ⟨[], ?_, by decide⟩
    rw [ShellDetector.getAllShellConfigPaths, hres, hhome]
    decide

/-- With no files on disk, the write target is the canonical path. -/
theorem getShellConfigPath_fresh {shell : Str} (h : supportedShell shell) (st : SysState)
    (hhome : st.home = strL "/home/user") (hfiles : ∀ p, st.files p = none) :
    ShellDetector.getShellConfigPath st (some shell) = primaryPath shell := by
  have hres : ShellDetector.resolveShell st (some shell) = shell := by
    rw [ShellDetector.resolveShell]
    simp [(supportedShell_facts h).1]
  have hfe : ∀ fs, ShellDetector.firstExistingPath st.files st.home fs = none := by
    intro fs
    induction fs with
    | nil => rfl
    | cons f rest ih =>
      rw [ShellDetector.firstExistingPath]
      simp [hfiles, ih]
  rw [ShellDetector.getShellConfigPath, hres, hfe, hhome]
  rcases h with h | h | h | h <;> subst h <;> rfl

/-- With the canonical file present, the write target is again the
canonical path (it is the first candidate). -/
theorem getShellConfigPath_existing {shell : Str} (h : supportedShell shell) (st : SysState)
    (hhome : st.home = strL "/home/user")
    (hfile : (st.files (primaryPath shell)).isSome = true) :
    ShellDetector.getShellConfigPath st (some shell) = primaryPath shell := by
  have hres : ShellDetector.resolveShell st (some shell) = shell := by
    rw [ShellDetector.resolveShell]
    simp [(supportedShell_facts h).1]
  rw [ShellDetector.getShellConfigPath, hres]
  rcases h with h | h | h | h <;> subst h
  · rw [show ShellDetector.configFileNames (strL "bash") =
        [strL ".bashrc", strL ".bash_profile", strL ".profile"] from rfl,
      ShellDetector.firstExistingPath,
      show pathJoin st.home (strL ".bashrc") = primaryPath (strL "bash") from by rw [hhome]; rfl,
      hfile]
    simp
  · rw [show ShellDetector.configFileNames (strL "zsh") =
        [strL ".zshrc", strL ".zprofile", strL ".profile"] from rfl,
      ShellDetector.firstExistingPath,
      show pathJoin st.home (strL ".zshrc") = primaryPath (strL "zsh") from by rw [hhome]; rfl,
      hfile]
    simp
  · rw [show ShellDetector.configFileNames (strL "fish") =
        [strL ".config/fish/config.fish"] from rfl,
      ShellDetector.firstExistingPath,
      show pathJoin st.home (strL ".config/fish/config.fish") = primaryPath (strL "fish") from by
        rw [hhome]; rfl,
      hfile]
    simp
  · rw [show ShellDetector.configFileNames (strL "powershell") =
        [strL "Documents/PowerShell/profile.ps1"] from rfl,
      ShellDetector.firstExistingPath,
      show pathJoin st.home (strL "Documents/PowerShell/profile.ps1") =
          primaryPath (strL "powershell") from by rw [hhome]; rfl,
      hfile]
    simp

theorem readPaths_skip_first {files : Str → Option Str} {p : Str} (rest : List Str)
    {n sh content : Str} (hfile : files p = some content)
    (hex : ConfigFileManager.extractEnvVariable content n sh = none) :
    ConfigFileManager.readPaths files (p :: rest) n sh =
      ConfigFileManager.readPaths files rest n sh := by
  rw [ConfigFileManager.readPaths, hfile]
  simp [hex]

theorem readPaths_all_none {files : Str → Option Str} {paths : List Str} {n sh : Str}
    (h : ∀ p ∈ paths, files p = none) :
    ConfigFileManager.readPaths files paths n sh = none := by
  induction paths with
  | nil => rfl
  | cons p rest ih =>
    rw [ConfigFileManager.readPaths, h p (by simp)]
    exact ih fun q hq => h q (by simp [hq])

theorem no_nl_append {a b : Str} (ha : ∀ c ∈ a, ¬ c = nl) (hb : ∀ c ∈ b, ¬ c = nl) :
    ∀ c ∈ a ++ b, ¬ c = nl :=
  fun c hc => (List.mem_append.mp hc).elim (ha c) (hb c)

/-- The characters of a generated export line: never a newline. -/
theorem lineFor_no_nl {shell n v : Str} (h : supportedShell shell)
    (hn : validName n) (hv : plainValue v) :
    ∀ c ∈ lineFor shell n v, ¬ c = nl := by
  have hname : ∀ c ∈ n, ¬ c = nl := fun c hc => (nameChar_facts (hn.2 c hc)).2.2.2.2.1
  have hval : ∀ c ∈ v, ¬ c = nl := fun c hc => (hv.2 c hc).2.2
  rcases h with h | h | h | h <;> subst h
  · exact no_nl_append (no_nl_append (no_nl_append (no_nl_append (no_nl_append
      (by decide) (by decide)) hname) (by decide)) hval) (by decide)
  · exact no_nl_append (no_nl_append (no_nl_append (no_nl_append (no_nl_append
      (by decide) (by decide)) hname) (by decide)) hval) (by decide)
  · exact no_nl_append (no_nl_append (no_nl_append (no_nl_append (no_nl_append
      (by decide) (by decide)) hname) (by decide)) hval) (by decide)
  · exact no_nl_append (no_nl_append (no_nl_append (no_nl_append
      (by decide) hname) (by decide)) hval) (by decide)

/-- Removal walks over a non-matching newline-free line unchanged. -/
theorem removeScan_line_noop {p : ShellPat} {n : Str} {c0 : Char} {rest : Str} (t : Str)
    (hfail : removeAt p n ((c0 :: rest) ++ (nl :: t)) = none)
    (hline : ∀ c ∈ c0 :: rest, ¬ c = nl) :
    removeScan p n ((c0 :: rest) ++ (nl :: t)) true =
      (c0 :: rest) ++ (nl :: removeScan p n t true) := by
  rw [List.cons_append] at hfail ⊢
  rw [removeScan_true_cons hfail, decide_eq_false (hline c0 (by simp))]
  rw [removeScan_skip_false (nl :: t) fun x hx => hline x (by simp [hx])]
  rw [removeScan_false_cons, decide_eq_true (show nl = nl from rfl)]
  simp

/-- Extraction walks past a non-matching newline-free line. -/
theorem extractScan_line_skip {p : ShellPat} {n : Str} {c0 : Char} {rest : Str} (t : Str)
    (hfail : extractAt p n ((c0 :: rest) ++ (nl :: t)) = none)
    (hline : ∀ c ∈ c0 :: rest, ¬ c = nl) :
    extractScan p n ((c0 :: rest) ++ (nl :: t)) true = extractScan p n t true := by
  rw [List.cons_append] at hfail ⊢
  rw [extractScan_true_cons hfail, decide_eq_false (hline c0 (by simp))]
  rw [extractScan_skip_false (nl :: t) fun x hx => hline x (by simp [hx])]
  rw [extractScan_false_cons, decide_eq_true (show nl = nl from rfl)]

/-- Blank-line collapse leaves `line\n` (a newline-free line and its
terminator) unchanged. -/
theorem collapseScan_line_nl {line : Str} (hline : ∀ c ∈ line, ¬ c = nl) :
    collapseScan (line ++ [nl]) = line ++ [nl] := by
  rw [show (line ++ [nl] : Str) = line ++ (nl :: []) from rfl, collapseScan_skip _ hline,
    collapseScan_cons (by decide), collapseScan_nil]

/-- The generic extraction fact behind C3/C4/C5: the variable written by
`writeEnvVariable` is extracted back from its comment/export block, with
anything following the block's final newline. -/
theorem extract_writeBlock {shell n v cmt : Str} (h : supportedShell shell)
    (hn : validName n) (hv : plainValue v) (hcmt : plainComment cmt) :
    ConfigFileManager.extractEnvVariable (writeBlock shell n v cmt) n shell = some v := by
  rw [ConfigFileManager.extractEnvVariable, writeBlock_shape]
  rcases h with h | h | h | h <;> subst h
  · rw [show patFor (strL "bash") = ShellPat.bash from rfl,
      extractScan_comment_block _ hcmt, lineFor_bash_append]
    exact extractScan_true_some (extractAt_bash_line [nl] hn hv)
  · rw [show patFor (strL "zsh") = ShellPat.bash from rfl,
      extractScan_comment_block _ hcmt, lineFor_zsh_append]
    exact extractScan_true_some (extractAt_bash_line [nl] hn hv)
  · rw [show patFor (strL "fish") = ShellPat.fish from rfl,
      extractScan_comment_block _ hcmt, lineFor_fish_append]
    exact extractScan_true_some (extractAt_fish_line [nl] hn hv)
  · rw [show patFor (strL "powershell") = ShellPat.powershell from rfl,
      extractScan_comment_block _ hcmt, lineFor_ps_append]
    exact extractScan_true_some (extractAt_ps_line [nl] hv)

/-- Removing the written variable from its own block: the export line is
deleted (its newline survives), the blank-line collapse touches nothing. -/
theorem remove_writeBlock {shell n v cmt : Str} (h : supportedShell shell)
    (hn : validName n) (hv : plainValue v) (hcmt : plainComment cmt) :
    ConfigFileManager.removeEnvVariable (writeBlock shell n v cmt) (some n) (some shell) =
      nl :: '#' :: ' ' :: (cmt ++ (nl :: [nl])) := by
  simp only [ConfigFileManager.removeEnvVariable]
  rw [writeBlock_shape]
  have hscan : removeScan (patFor shell) n
      (nl :: '#' :: ' ' :: (cmt ++ (nl :: (lineFor shell n v ++ [nl])))) true =
      nl :: '#' :: ' ' :: (cmt ++ (nl :: [nl])) := by
    rcases h with h | h | h | h <;> subst h
    · rw [show patFor (strL "bash") = ShellPat.bash from rfl,
        removeScan_comment_block _ hcmt, lineFor_bash_append,
        removeScan_true_some (removeAt_bash_line ('"' :: (v ++ ('"' :: [nl]))) hn),
        dropLine_quoted [] hv, removeScan_false_cons, removeScan_nil]
    · rw [show patFor (strL "zsh") = ShellPat.bash from rfl,
        removeScan_comment_block _ hcmt, lineFor_zsh_append,
        removeScan_true_some (removeAt_bash_line ('"' :: (v ++ ('"' :: [nl]))) hn),
        dropLine_quoted [] hv, removeScan_false_cons, removeScan_nil]
    · rw [show patFor (strL "fish") = ShellPat.fish from rfl,
        removeScan_comment_block _ hcmt, lineFor_fish_append,
        removeScan_true_some (removeAt_fish_line (v ++ ('"' :: [nl])) hn),
        dropLine_quoted [] hv, removeScan_false_cons, removeScan_nil]
    · rw [show patFor (strL "powershell") = ShellPat.powershell from rfl,
        removeScan_comment_block _ hcmt, lineFor_ps_append,
        removeScan_true_some (removeAt_ps_line (' ' :: ('"' :: (v ++ ('"' :: [nl]))))),
        show dropLine (' ' :: ('"' :: (v ++ ('"' :: [nl])))) = dropLine ('"' :: (v ++ ('"' :: (nl :: [])))) from by
          rw [dropLine, dropLine, List.dropWhile_cons, if_pos (by decide)],
        dropLine_quoted [] hv, removeScan_false_cons, removeScan_nil]
  rw [hscan, collapseScan_comment_block [nl] hcmt (by decide),
    show ([nl] : Str) = nl :: [] from rfl, collapseScan_cons (by decide), collapseScan_nil]

theorem removeAt_bash_prefix2 {n1 : Str} {c : Char} (cs w : Str)
    (hn1 : validName n1) (hc : nameChar c) :
    removeAt ShellPat.bash (n1 ++ (c :: cs)) (strL "export " ++ (n1 ++ ('=' :: w))) = none := by
  have hshape : strL "export " ++ (n1 ++ ('=' :: w)) =
      'e' :: (strL "xport " ++ (n1 ++ ('=' :: w))) := rfl
  rw [removeAt, hshape, spaceSuffixes_nonspace _ (by decide), firstSome_singleton, ← hshape]
  have hmatch : strL "export " ++ (n1 ++ ('=' :: w)) =
      strL "export" ++ (' ' :: (n1 ++ ('=' :: w))) := rfl
  rw [hmatch, matchLit_self_append]
  simp only [Option.some_bind]
  rw [spacePlusSuffixes_space _ (by decide), spaceSuffixes_name _ hn1, firstSome_singleton,
    matchLit_append_split, matchLit_self_append]
  simp only [Option.some_bind]
  rw [matchLit_head_ne fun hh => (nameChar_facts hc).2.1 hh]
  rfl

theorem removeAt_fish_prefix2 {n1 : Str} {c : Char} (cs w : Str)
    (hn1 : validName n1) (hc : nameChar c) :
    removeAt ShellPat.fish (n1 ++ (c :: cs)) (strL "set -gx " ++ (n1 ++ (' ' :: w))) = none := by
  have hshape : strL "set -gx " ++ (n1 ++ (' ' :: w)) =
      's' :: (strL "et -gx " ++ (n1 ++ (' ' :: w))) := rfl
  rw [removeAt, hshape, spaceSuffixes_nonspace _ (by decide), firstSome_singleton, ← hshape]
  have hmatch : strL "set -gx " ++ (n1 ++ (' ' :: w)) =
      strL "set" ++ (' ' :: ('-' :: ('g' :: ('x' :: (' ' :: (n1 ++ (' ' :: w))))))) := rfl
  rw [hmatch, matchLit_self_append]
  simp only [Option.some_bind]
  rw [spacePlusSuffixes_space _ (by decide), spaceSuffixes_nonspace _ (by decide),
    firstSome_singleton]
  have hgx : ('-' :: ('g' :: ('x' :: (' ' :: (n1 ++ (' ' :: w)))))) =
      strL "-gx" ++ (' ' :: (n1 ++ (' ' :: w))) := rfl
  rw [hgx, matchLit_self_append]
  simp only [Option.some_bind]
  rw [spacePlusSuffixes_space _ (by decide), spaceSuffixes_name _ hn1, firstSome_singleton,
    matchLit_append_split, matchLit_self_append]
  simp only [Option.some_bind]
  rw [matchLit_head_ne fun hh => (nameChar_facts hc).2.2.2.2.2.2.2.2.1 hh]
  rfl

theorem removeAt_ps_prefix2 {n1 : Str} {c : Char} (cs w : Str) (hc : nameChar c) :
    removeAt ShellPat.powershell (n1 ++ (c :: cs))
      (strL "$env:" ++ (n1 ++ (' ' :: ('=' :: w)))) = none := by
  have hshape : strL "$env:" ++ (n1 ++ (' ' :: ('=' :: w))) =
      '$' :: (strL "env:" ++ (n1 ++ (' ' :: ('=' :: w)))) := rfl
  rw [removeAt, hshape, spaceSuffixes_nonspace _ (by decide), firstSome_singleton, ← hshape,
    matchLit_self_append]
  simp only [Option.some_bind]
  rw [matchLit_append_split, matchLit_self_append]
  simp only [Option.some_bind]
  rw [matchLit_head_ne fun hh => (nameChar_facts hc).2.2.2.2.2.2.2.2.1 hh]
  rfl

/-- The cons-decomposition of each generated line (used to walk scans
over the line character by character). -/
theorem lineFor_bash_cons (n v : Str) :
    lineFor (strL "bash") n v =
      'e' :: (strL "xport " ++ (n ++ ('=' :: ('"' :: (v ++ ['"']))))) := by
  rw [show lineFor (strL "bash") n v = lineFor (strL "bash") n v ++ [] from by simp,
    lineFor_bash_append]
  rfl

theorem lineFor_zsh_cons (n v : Str) :
    lineFor (strL "zsh") n v =
      'e' :: (strL "xport " ++ (n ++ ('=' :: ('"' :: (v ++ ['"']))))) := by
  rw [show lineFor (strL "zsh") n v = lineFor (strL "zsh") n v ++ [] from by simp,
    lineFor_zsh_append]
  rfl

theorem lineFor_fish_cons (n v : Str) :
    lineFor (strL "fish") n v =
      's' :: (strL "et -gx " ++ (n ++ (' ' :: ('"' :: (v ++ ['"']))))) := by
  rw [show lineFor (strL "fish") n v = lineFor (strL "fish") n v ++ [] from by simp,
    lineFor_fish_append]
  rfl

theorem lineFor_ps_cons (n v : Str) :
    lineFor (strL "powershell") n v =
      '$' :: (strL "env:" ++ (n ++ (' ' :: ('=' :: (' ' :: ('"' :: (v ++ ['"']))))))) := by
  rw [show lineFor (strL "powershell") n v = lineFor (strL "powershell") n v ++ [] from by simp,
    lineFor_ps_append]
  rfl

/-- Appending a tail after a block: the block's final newline separates
the line from the tail. -/
theorem writeBlock_append (sh n v cmt T : Str) :
    writeBlock sh n v cmt ++ T =
      nl :: '#' :: ' ' :: (cmt ++ (nl :: (lineFor sh n v ++ (nl :: T)))) := by
  rw [writeBlock_shape]
  simp [List.append_assoc]

/-- Extraction of the written name from its block, with any tail after
the block. -/
theorem extract_writeBlock_t {shell n v cmt : Str} (T : Str) (h : supportedShell shell)
    (hn : validName n) (hv : plainValue v) (hcmt : plainComment cmt) :
    extractScan (patFor shell) n (writeBlock shell n v cmt ++ T) true = some v := by
  rw [writeBlock_append]
  rcases h with h | h | h | h <;> subst h
  · rw [show patFor (strL "bash") = ShellPat.bash from rfl, extractScan_comment_block _ hcmt,
      lineFor_bash_append]
    exact extractScan_true_some (extractAt_bash_line (nl :: T) hn hv)
  · rw [show patFor (strL "zsh") = ShellPat.bash from rfl, extractScan_comment_block _ hcmt,
      lineFor_zsh_append]
    exact extractScan_true_some (extractAt_bash_line (nl :: T) hn hv)
  · rw [show patFor (strL "fish") = ShellPat.fish from rfl, extractScan_comment_block _ hcmt,
      lineFor_fish_append]
    exact extractScan_true_some (extractAt_fish_line (nl :: T) hn hv)
  · rw [show patFor (strL "powershell") = ShellPat.powershell from rfl,
      extractScan_comment_block _ hcmt, lineFor_ps_append]
    exact extractScan_true_some (extractAt_ps_line (nl :: T) hv)

/-- Scanning for a proper prefix of the block's name walks past the
whole block. -/
theorem extract_writeBlock_prefix1_t {shell n1 v cmt : Str} {c : Char} (cs T : Str)
    (h : supportedShell shell) (hn1 : validName n1)
    (hn2 : validName (n1 ++ (c :: cs))) (hc : nameChar c)
    (hv : plainValue v) (hcmt : plainComment cmt) :
    extractScan (patFor shell) n1 (writeBlock shell (n1 ++ (c :: cs)) v cmt ++ T) true =
      extractScan (patFor shell) n1 T true := by
  rw [writeBlock_append]
  have hlnl := lineFor_no_nl h hn2 hv
  rcases h with h | h | h | h <;> subst h
  · rw [show patFor (strL "bash") = ShellPat.bash from rfl, extractScan_comment_block _ hcmt,
      lineFor_bash_cons]
    refine extractScan_line_skip T ?_ ?_
    · rw [show (('e' :: (strL "xport " ++ ((n1 ++ (c :: cs)) ++ ('=' :: ('"' :: (v ++ ['"'])))))) ++ (nl :: T) : Str) =
        strL "export " ++ ((n1 ++ (c :: cs)) ++ ('=' :: ('"' :: (v ++ ('"' :: (nl :: T)))))) from by
          simp only [List.cons_append, List.append_assoc, List.singleton_append]
          rfl]
      exact extractAt_bash_prefix1 cs _ hn1 hc
    · rw [← lineFor_bash_cons]
      exact hlnl
  · rw [show patFor (strL "zsh") = ShellPat.bash from rfl, extractScan_comment_block _ hcmt,
      lineFor_zsh_cons]
    refine extractScan_line_skip T ?_ ?_
    · rw [show (('e' :: (strL "xport " ++ ((n1 ++ (c :: cs)) ++ ('=' :: ('"' :: (v ++ ['"'])))))) ++ (nl :: T) : Str) =
        strL "export " ++ ((n1 ++ (c :: cs)) ++ ('=' :: ('"' :: (v ++ ('"' :: (nl :: T)))))) from by
          simp only [List.cons_append, List.append_assoc, List.singleton_append]
          rfl]
      exact extractAt_bash_prefix1 cs _ hn1 hc
    · rw [← lineFor_zsh_cons]
      exact hlnl
  · rw [show patFor (strL "fish") = ShellPat.fish from rfl, extractScan_comment_block _ hcmt,
      lineFor_fish_cons]
    refine extractScan_line_skip T ?_ ?_
    · rw [show (('s' :: (strL "et -gx " ++ ((n1 ++ (c :: cs)) ++ (' ' :: ('"' :: (v ++ ['"'])))))) ++ (nl :: T) : Str) =
        strL "set -gx " ++ ((n1 ++ (c :: cs)) ++ (' ' :: ('"' :: (v ++ ('"' :: (nl :: T)))))) from by
          simp only [List.cons_append, List.append_assoc, List.singleton_append]
          rfl]
      exact extractAt_fish_prefix1 cs _ hn1 hc
    · rw [← lineFor_fish_cons]
      exact hlnl
  · rw [show patFor (strL "powershell") = ShellPat.powershell from rfl,
      extractScan_comment_block _ hcmt, lineFor_ps_cons]
    refine extractScan_line_skip T ?_ ?_
    · rw [show (('$' :: (strL "env:" ++ ((n1 ++ (c :: cs)) ++ (' ' :: ('=' :: (' ' :: ('"' :: (v ++ ['"'])))))))) ++ (nl :: T) : Str) =
        strL "$env:" ++ ((n1 ++ (c :: cs)) ++ (' ' :: ('=' :: (' ' :: ('"' :: (v ++ ('"' :: (nl :: T)))))))) from by
          simp only [List.cons_append, List.append_assoc, List.singleton_append]
          rfl]
      exact extractAt_ps_prefix1 cs _ hc
    · rw [← lineFor_ps_cons]
      exact hlnl

/-- Removing a proper prefix of the block's name leaves the block
byte-for-byte unchanged (and the blank-line collapse finds nothing). -/
theorem remove_writeBlock_prefix1 {shell n1 v cmt : Str} {c : Char} (cs : Str)
    (h : supportedShell shell) (hn1 : validName n1)
    (hn2 : validName (n1 ++ (c :: cs))) (hc : nameChar c)
    (hv : plainValue v) (hcmt : plainComment cmt) :
    ConfigFileManager.removeEnvVariable (writeBlock shell (n1 ++ (c :: cs)) v cmt)
      (some n1) (some shell) = writeBlock shell (n1 ++ (c :: cs)) v cmt := by
  simp only [ConfigFileManager.removeEnvVariable]
  rw [writeBlock_shape]
  have hlnl := lineFor_no_nl h hn2 hv
  have hscan : removeScan (patFor shell) n1
      (nl :: '#' :: ' ' :: (cmt ++ (nl :: (lineFor shell (n1 ++ (c :: cs)) v ++ [nl])))) true =
      nl :: '#' :: ' ' :: (cmt ++ (nl :: (lineFor shell (n1 ++ (c :: cs)) v ++ [nl]))) := by
    rcases h with h | h | h | h <;> subst h
    · rw [show patFor (strL "bash") = ShellPat.bash from rfl, removeScan_comment_block _ hcmt,
        lineFor_bash_cons]
      rw [removeScan_line_noop [] ?hfail ?hnl, removeScan_nil]
      case hfail =>
        rw [show (('e' :: (strL "xport " ++ ((n1 ++ (c :: cs)) ++ ('=' :: ('"' :: (v ++ ['"'])))))) ++ (nl :: []) : Str) =
          strL "export " ++ ((n1 ++ (c :: cs)) ++ ('=' :: ('"' :: (v ++ ('"' :: (nl :: [])))))) from by
            simp only [List.cons_append, List.append_assoc, List.singleton_append]
            rfl]
        exact removeAt_bash_prefix1 cs _ hn1 hc
      case hnl =>
        rw [← lineFor_bash_cons]
        exact hlnl
    · rw [show patFor (strL "zsh") = ShellPat.bash from rfl, removeScan_comment_block _ hcmt,
        lineFor_zsh_cons]
      rw [removeScan_line_noop [] ?hfail ?hnl, removeScan_nil]
      case hfail =>
        rw [show (('e' :: (strL "xport " ++ ((n1 ++ (c :: cs)) ++ ('=' :: ('"' :: (v ++ ['"'])))))) ++ (nl :: []) : Str) =
          strL "export " ++ ((n1 ++ (c :: cs)) ++ ('=' :: ('"' :: (v ++ ('"' :: (nl :: [])))))) from by
            simp only [List.cons_append, List.append_assoc, List.singleton_append]
            rfl]
        exact removeAt_bash_prefix1 cs _ hn1 hc
      case hnl =>
        rw [← lineFor_zsh_cons]
        exact hlnl
    · rw [show patFor (strL "fish") = ShellPat.fish from rfl, removeScan_comment_block _ hcmt,
        lineFor_fish_cons]
      rw [removeScan_line_noop [] ?hfail ?hnl, removeScan_nil]
      case hfail =>
        rw [show (('s' :: (strL "et -gx " ++ ((n1 ++ (c :: cs)) ++ (' ' :: ('"' :: (v ++ ['"'])))))) ++ (nl :: []) : Str) =
          strL "set -gx " ++ ((n1 ++ (c :: cs)) ++ (' ' :: ('"' :: (v ++ ('"' :: (nl :: [])))))) from by
            simp only [List.cons_append, List.append_assoc, List.singleton_append]
            rfl]
        exact removeAt_fish_prefix1 cs _ hn1 hc
      case hnl =>
        rw [← lineFor_fish_cons]
        exact hlnl
    · rw [show patFor (strL "powershell") = ShellPat.powershell from rfl,
        removeScan_comment_block _ hcmt, lineFor_ps_cons]
      rw [removeScan_line_noop [] ?hfail ?hnl, removeScan_nil]
      case hfail =>
        rw [show (('$' :: (strL "env:" ++ ((n1 ++ (c :: cs)) ++ (' ' :: ('=' :: (' ' :: ('"' :: (v ++ ['"'])))))))) ++ (nl :: []) : Str) =
          strL "$env:" ++ ((n1 ++ (c :: cs)) ++ (' ' :: ('=' :: (' ' :: ('"' :: (v ++ ('"' :: (nl :: [])))))))) from by
            simp only [List.cons_append, List.append_assoc, List.singleton_append]
            rfl]
        exact removeAt_ps_prefix1 cs _ hc
      case hnl =>
        rw [← lineFor_ps_cons]
        exact hlnl
  rw [hscan]
  have hhead : ∃ c0 r0, lineFor shell (n1 ++ (c :: cs)) v = c0 :: r0 ∧ jsSpace c0 = false := by
    rcases h with h | h | h | h <;> subst h
    · exact ⟨_, _, lineFor_bash_cons _ _, by decide⟩
    · exact ⟨_, _, lineFor_zsh_cons _ _, by decide⟩
    · exact ⟨_, _, lineFor_fish_cons _ _, by decide⟩
    · exact ⟨_, _, lineFor_ps_cons _ _, by decide⟩
  rcases hhead with ⟨c0, r0, hc0, hsp0⟩
  rw [collapseScan_comment_block (lineFor shell (n1 ++ (c :: cs)) v ++ [nl]) hcmt
    (by rw [hc0, List.cons_append]; exact collapseAt_nl_nonspace _ hsp0)]
  rw [collapseScan_line_nl hlnl]

theorem isAssignLine_nil (shell n : Str) : isAssignLine shell n [] = false := by
  rw [isAssignLine, removeAt_nil]
  rfl

theorem isAssignLine_hash (shell n : Str) (rest : Str) :
    isAssignLine shell n ('#' :: rest) = false := by
  rw [isAssignLine, removeAt_head_fail rest (by decide) (by decide) (by decide) (by decide)]
  rfl

theorem isAssignLine_lineFor {shell n v : Str} (h : supportedShell shell)
    (hn : validName n) :
    isAssignLine shell n (lineFor shell n v) = true := by
  rw [isAssignLine]
  rcases h with h | h | h | h <;> subst h
  · rw [show patFor (strL "bash") = ShellPat.bash from rfl,
      show lineFor (strL "bash") n v = lineFor (strL "bash") n v ++ [] from by simp,
      lineFor_bash_append, removeAt_bash_line _ hn]
    rfl
  · rw [show patFor (strL "zsh") = ShellPat.bash from rfl,
      show lineFor (strL "zsh") n v = lineFor (strL "zsh") n v ++ [] from by simp,
      lineFor_zsh_append, removeAt_bash_line _ hn]
    rfl
  · rw [show patFor (strL "fish") = ShellPat.fish from rfl,
      show lineFor (strL "fish") n v = lineFor (strL "fish") n v ++ [] from by simp,
      lineFor_fish_append, removeAt_fish_line _ hn]
    rfl
  · rw [show patFor (strL "powershell") = ShellPat.powershell from rfl,
      show lineFor (strL "powershell") n v = lineFor (strL "powershell") n v ++ [] from by simp,
      lineFor_ps_append, removeAt_ps_line _]
    rfl

theorem isAssignLine_prefix2 {shell n1 v : Str} {c : Char} (cs : Str) (h : supportedShell shell)
    (hn1 : validName n1) (hc : nameChar c) :
    isAssignLine shell (n1 ++ (c :: cs)) (lineFor shell n1 v) = false := by
  rw [isAssignLine]
  rcases h with h | h | h | h <;> subst h
  · rw [show patFor (strL "bash") = ShellPat.bash from rfl,
      show lineFor (strL "bash") n1 v = lineFor (strL "bash") n1 v ++ [] from by simp,
      lineFor_bash_append, removeAt_bash_prefix2 cs _ hn1 hc]
    rfl
  · rw [show patFor (strL "zsh") = ShellPat.bash from rfl,
      show lineFor (strL "zsh") n1 v = lineFor (strL "zsh") n1 v ++ [] from by simp,
      lineFor_zsh_append, removeAt_bash_prefix2 cs _ hn1 hc]
    rfl
  · rw [show patFor (strL "fish") = ShellPat.fish from rfl,
      show lineFor (strL "fish") n1 v = lineFor (strL "fish") n1 v ++ [] from by simp,
      lineFor_fish_append, removeAt_fish_prefix2 cs _ hn1 hc]
    rfl
  · rw [show patFor (strL "powershell") = ShellPat.powershell from rfl,
      show lineFor (strL "powershell") n1 v = lineFor (strL "powershell") n1 v ++ [] from by simp,
      lineFor_ps_append, removeAt_ps_prefix2 cs _ hc]
    rfl

/-- The lines of a comment/export block appended after a prefix whose
last line run is `text\n\n`: a leading blank line, the comment line, the
export line, the final empty line. -/
theorem splitLines_writeBlock (sh n v cmt : Str) (hcmt : plainComment cmt)
    (hline : ∀ c ∈ lineFor sh n v, ¬ c = nl) :
    splitLines (writeBlock sh n v cmt) =
      [[], '#' :: ' ' :: cmt, lineFor sh n v, []] := by
  rw [writeBlock_shape, splitLines_cons_nl,
    show ('#' :: ' ' :: (cmt ++ (nl :: (lineFor sh n v ++ [nl]))) : Str) =
      ('#' :: ' ' :: cmt) ++ (nl :: (lineFor sh n v ++ [nl])) from by simp,
    splitLines_append_noNl _ (commentChars_no_nl hcmt),
    show (lineFor sh n v ++ [nl] : Str) = lineFor sh n v ++ (nl :: []) from rfl,
    splitLines_append_noNl _ hline]
  rfl

theorem countAssignLines_remnant_block {shell n v2 cmt1 cmt2 : Str}
    (h : supportedShell shell) (hn : validName n) (hv2 : plainValue v2)
    (hcmt1 : plainComment cmt1) (hcmt2 : plainComment cmt2) :
    countAssignLines shell n
      ((nl :: '#' :: ' ' :: (cmt1 ++ (nl :: [nl]))) ++ writeBlock shell n v2 cmt2) = 1 := by
  have hshape : (nl :: '#' :: ' ' :: (cmt1 ++ (nl :: [nl]))) ++ writeBlock shell n v2 cmt2 =
      nl :: (('#' :: ' ' :: cmt1) ++ (nl :: (nl :: writeBlock shell n v2 cmt2))) := by
    simp [List.append_assoc]
  rw [countAssignLines, hshape, splitLines_cons_nl,
    splitLines_append_noNl _ (commentChars_no_nl hcmt1), splitLines_cons_nl,
    splitLines_writeBlock _ n v2 cmt2 hcmt2 (lineFor_no_nl h hn hv2)]
  simp [List.countP_cons, isAssignLine_nil, isAssignLine_hash,
    isAssignLine_lineFor h hn]

/-!
## C4: updates replace, never append
-/

/-- C4 (amended): for every supported shell and valid name other than
`SHELL`, for quote- and newline-free values, writing `v1` and then `v2`
(from a fresh state) leaves the config file with exactly one assignment
line for the name, and reading returns `v2`.  With `v1 = v2` this is the
idempotent-overwrite property; with `v1 ≠ v2` it is
update-replaces-not-appends.  The exclusions are necessary — see the
counterexample theorem. -/
theorem c4_update_replaces (shell n v1 v2 cmt1 cmt2 : Str) (hshell : supportedShell shell)
    (hn : validName n) (hnsh : ¬ n = strL "SHELL") (hv1 : plainValue v1) (hv2 : plainValue v2)
    (hcmt1 : plainComment cmt1) (hcmt2 : plainComment cmt2) :
    countAssignLines shell n
      (((ConfigFileManager.writeEnvVariable (ConfigFileManager.writeEnvVariable (freshState (strL "/bin/" ++ shell)) n v1 (some shell) (some cmt1) true).2 n v2 (some shell) (some cmt2) true).2.files (primaryPath shell)).getD []) = 1 ∧
    ConfigFileManager.readEnvVariable (ConfigFileManager.writeEnvVariable (ConfigFileManager.writeEnvVariable (freshState (strL "/bin/" ++ shell)) n v1 (some shell) (some cmt1) true).2 n v2 (some shell) (some cmt2) true).2 n = some v2 := by
  obtain ⟨hne, hncmd⟩ := supportedShell_facts hshell
  have hfiles0 : ∀ p, (freshState (strL "/bin/" ++ shell)).files p = none := fun p => rfl
  have hcfg1 : ShellDetector.getShellConfigPath (freshState (strL "/bin/" ++ shell))
      (some shell) = primaryPath shell := getShellConfigPath_fresh hshell _ rfl hfiles0
  have hw1 := writeEnvVariable_run (freshState (strL "/bin/" ++ shell)) n v1 shell cmt1 hne hncmd
  rw [hcfg1, show ((freshState (strL "/bin/" ++ shell)).files (primaryPath shell)).getD [] = []
    from rfl, writeResultContent_nil] at hw1
  have hfile1 : (ConfigFileManager.writeEnvVariable (freshState (strL "/bin/" ++ shell)) n v1 (some shell) (some cmt1) true).2.files (primaryPath shell) = some (writeBlock shell n v1 cmt1) := by
    rw [hw1]
    exact updateMap_same _ _ _
  have hhome1 : (ConfigFileManager.writeEnvVariable (freshState (strL "/bin/" ++ shell)) n v1 (some shell) (some cmt1) true).2.home = strL "/home/user" := by
    rw [hw1]
    rfl
  have henv1 : (ConfigFileManager.writeEnvVariable (freshState (strL "/bin/" ++ shell)) n v1 (some shell) (some cmt1) true).2.env n = none := by
    rw [hw1]
    simp [freshState, hnsh]
  have hdet1 : ShellDetector.detectShell (ConfigFileManager.writeEnvVariable (freshState (strL "/bin/" ++ shell)) n v1 (some shell) (some cmt1) true).2 = shell := by
    rw [hw1]
    exact detectShell_fresh hshell
  have hcfg2 : ShellDetector.getShellConfigPath (ConfigFileManager.writeEnvVariable (freshState (strL "/bin/" ++ shell)) n v1 (some shell) (some cmt1) true).2 (some shell) = primaryPath shell :=
    getShellConfigPath_existing hshell _ hhome1 (by rw [hfile1]; rfl)
  have hw2 := writeEnvVariable_run (ConfigFileManager.writeEnvVariable (freshState (strL "/bin/" ++ shell)) n v1 (some shell) (some cmt1) true).2 n v2 shell cmt2 hne hncmd
  rw [hcfg2, show ((ConfigFileManager.writeEnvVariable (freshState (strL "/bin/" ++ shell)) n v1 (some shell) (some cmt1) true).2.files (primaryPath shell)).getD [] = writeBlock shell n v1 cmt1
    from by rw [hfile1, Option.getD_some]] at hw2
  have hx := extract_writeBlock hshell hn hv1 hcmt1
  have hr := remove_writeBlock hshell hn hv1 hcmt1
  have hwrc : writeResultContent shell n v2 cmt2 (writeBlock shell n v1 cmt1) =
      (nl :: '#' :: ' ' :: (cmt1 ++ (nl :: [nl]))) ++ writeBlock shell n v2 cmt2 := by
    have hv1ne : (decide (¬ v1 = []) : Bool) = true := by simp [hv1.1]
    have hpad : padNl (nl :: '#' :: ' ' :: (cmt1 ++ (nl :: [nl]))) = [] := by
      rw [padNl, if_neg]
      intro hcontra
      apply hcontra.2
      rw [show ((nl :: '#' :: ' ' :: (cmt1 ++ (nl :: [nl]))) : Str) =
        (nl :: '#' :: ' ' :: (cmt1 ++ [nl])) ++ [nl] from by simp]
      exact List.getLast?_concat _
    simp only [writeResultContent, hx, hv1ne, if_true, hr, hpad, List.append_nil]
  rw [hwrc] at hw2
  constructor
  · have hfile2 : (ConfigFileManager.writeEnvVariable (ConfigFileManager.writeEnvVariable (freshState (strL "/bin/" ++ shell)) n v1 (some shell) (some cmt1) true).2 n v2 (some shell) (some cmt2) true).2.files (primaryPath shell) =
        some ((nl :: '#' :: ' ' :: (cmt1 ++ (nl :: [nl]))) ++ writeBlock shell n v2 cmt2) := by
      rw [hw2]
      exact updateMap_same _ _ _
    rw [hfile2, Option.getD_some]
    exact countAssignLines_remnant_block hshell hn hv2 hcmt1 hcmt2
  · have henv2 : (ConfigFileManager.writeEnvVariable (ConfigFileManager.writeEnvVariable (freshState (strL "/bin/" ++ shell)) n v1 (some shell) (some cmt1) true).2 n v2 (some shell) (some cmt2) true).2.env n = none := by
      rw [hw2]
      exact henv1
    rw [readEnvVariable_no_env henv2]
    have hdet2 : ShellDetector.detectShell (ConfigFileManager.writeEnvVariable (ConfigFileManager.writeEnvVariable (freshState (strL "/bin/" ++ shell)) n v1 (some shell) (some cmt1) true).2 n v2 (some shell) (some cmt2) true).2 = shell := by
      rw [hw2]
      exact hdet1
    have hhome2 : (ConfigFileManager.writeEnvVariable (ConfigFileManager.writeEnvVariable (freshState (strL "/bin/" ++ shell)) n v1 (some shell) (some cmt1) true).2 n v2 (some shell) (some cmt2) true).2.home = strL "/home/user" := by
      rw [hw2]
      exact hhome1
    rw [hdet2]
    obtain ⟨rest, hp, _⟩ := paths_full hshell _ hhome2
    rw [hp]
    have hfile2r : (ConfigFileManager.writeEnvVariable (ConfigFileManager.writeEnvVariable (freshState (strL "/bin/" ++ shell)) n v1 (some shell) (some cmt1) true).2 n v2 (some shell) (some cmt2) true).2.files (primaryPath shell) =
        some ((nl :: '#' :: ' ' :: (cmt1 ++ (nl :: [nl]))) ++ writeBlock shell n v2 cmt2) := by
      rw [hw2]
      exact updateMap_same _ _ _
    refine readPaths_cons_some rest hfile2r ?_ hv2.1
    · rw [ConfigFileManager.extractEnvVariable,
        show (nl :: '#' :: ' ' :: (cmt1 ++ (nl :: [nl]))) ++ writeBlock shell n v2 cmt2 =
          nl :: '#' :: ' ' :: (cmt1 ++ (nl :: (nl :: writeBlock shell n v2 cmt2))) from by
            simp [List.append_assoc],
        extractScan_comment_block _ hcmt1]
      have hblocknone : extractAt (patFor shell) n (nl :: writeBlock shell n v2 cmt2) = none := by
        apply extractAt_nl
        rw [writeBlock_shape]
        exact extractAt_nl (extractAt_head_fail _ (by decide) (by decide) (by decide) (by decide))
      rw [extractScan_true_cons hblocknone, decide_eq_true (show nl = nl from rfl)]
      exact extract_writeBlock hshell hn hv2 hcmt2

/-- C4 witness: bash, value a then b, and the idempotent same-value case. -/
theorem c4_update_replaces_witness :
    countAssignLines (strL "bash") (strL "API_KEY")
      (((ConfigFileManager.writeEnvVariable
        (ConfigFileManager.writeEnvVariable (freshState (strL "/bin/" ++ strL "bash"))
          (strL "API_KEY") (strL "a") (some (strL "bash")) (some (strL "c")) true).2
        (strL "API_KEY") (strL "b") (some (strL "bash")) (some (strL "c")) true).2.files
        (primaryPath (strL "bash"))).getD []) = 1 ∧
    ConfigFileManager.readEnvVariable
      (ConfigFileManager.writeEnvVariable
        (ConfigFileManager.writeEnvVariable (freshState (strL "/bin/" ++ strL "bash"))
          (strL "API_KEY") (strL "a") (some (strL "bash")) (some (strL "c")) true).2
        (strL "API_KEY") (strL "b") (some (strL "bash")) (some (strL "c")) true).2
      (strL "API_KEY") = some (strL "b") :=
  c4_update_replaces (strL "bash") (strL "API_KEY") (strL "a") (strL "b") (strL "c") (strL "c")
    (Or.inl rfl) (by decide) (by decide) (by decide) (by decide) (by decide) (by decide)

/-- C4 counterexample: the claim as stated — for every variable name —
fails on the code.  At the name `SHELL` the two writes succeed and the
file holds the line for `"b"`, but `read` returns the stale process
environment value `/bin/bash`, not `"b"`; and writing the same
quote-carrying pair twice reads back the truncated prefix, not the
value. -/
theorem c4_update_replaces_counterexample :
    ConfigFileManager.readEnvVariable
        (ConfigFileManager.writeEnvVariable
          (ConfigFileManager.writeEnvVariable (freshState (strL "/bin/bash")) (strL "SHELL")
            (strL "a") (some (strL "bash")) (some (strL "c")) true).2
          (strL "SHELL") (strL "b") (some (strL "bash")) (some (strL "c")) true).2
        (strL "SHELL")
      = some (strL "/bin/bash") ∧
    ¬ strL "/bin/bash" = strL "b" ∧
    ConfigFileManager.readEnvVariable
        (ConfigFileManager.writeEnvVariable
          (ConfigFileManager.writeEnvVariable (freshState (strL "/bin/bash")) (strL "API_KEY")
            (strL "a\"b") (some (strL "bash")) (some (strL "c")) true).2
          (strL "API_KEY") (strL "a\"b") (some (strL "bash")) (some (strL "c")) true).2
        (strL "API_KEY")
      = some (strL "a") ∧
    ¬ strL "a" = strL "a\"b" := by
  refine ⟨by decide, by decide, by decide, by decide⟩

/-!
## C5: prefix isolation
-/

theorem countAssignLines_two_blocks {shell n1 v1 v2 cmt1 cmt2 : Str} {c : Char} (cs : Str)
    (h : supportedShell shell) (hn1 : validName n1) (hn2 : validName (n1 ++ (c :: cs)))
    (hc : nameChar c) (hv1 : plainValue v1) (hv2 : plainValue v2)
    (hcmt1 : plainComment cmt1) (hcmt2 : plainComment cmt2) :
    countAssignLines shell (n1 ++ (c :: cs))
      (writeBlock shell (n1 ++ (c :: cs)) v2 cmt2 ++ writeBlock shell n1 v1 cmt1) = 1 := by
  have hshape : writeBlock shell (n1 ++ (c :: cs)) v2 cmt2 ++ writeBlock shell n1 v1 cmt1 =
      nl :: (('#' :: ' ' :: cmt2) ++ (nl :: (lineFor shell (n1 ++ (c :: cs)) v2 ++
        (nl :: writeBlock shell n1 v1 cmt1)))) := by
    rw [writeBlock_shape]
    simp [List.append_assoc]
  rw [countAssignLines, hshape, splitLines_cons_nl,
    splitLines_append_noNl _ (commentChars_no_nl hcmt2),
    splitLines_append_noNl _ (lineFor_no_nl h hn2 hv2),
    splitLines_writeBlock _ n1 v1 cmt1 hcmt1 (lineFor_no_nl h hn1 hv1)]
  simp [List.countP_cons, isAssignLine_nil, isAssignLine_hash,
    isAssignLine_lineFor h hn2, isAssignLine_prefix2 cs h hn1 hc]

/-- C5: a name `n1` that is a proper prefix of a stored name `n1 ++ c :: cs`
(for a name-character `c`) is fully isolated from it: after writing the
longer name from a fresh state, reading `n1` reports absent; the remove
transform for `n1` leaves the file content unchanged; and after
additionally writing `n1`, each name reads back its own value and the
longer name still has exactly one assignment line. -/
theorem c5_prefix_isolation (shell n1 v1 v2 cmt1 cmt2 : Str) (c : Char) (cs : Str)
    (hshell : supportedShell shell) (hn1 : validName n1)
    (hn2 : validName (n1 ++ (c :: cs))) (hc : nameChar c)
    (hn1sh : ¬ n1 = strL "SHELL") (hn2sh : ¬ (n1 ++ (c :: cs)) = strL "SHELL")
    (hv1 : plainValue v1) (hv2 : plainValue v2)
    (hcmt1 : plainComment cmt1) (hcmt2 : plainComment cmt2) :
    ConfigFileManager.readEnvVariable (ConfigFileManager.writeEnvVariable (freshState (strL "/bin/" ++ shell)) (n1 ++ (c :: cs)) v2 (some shell) (some cmt2) true).2 n1 = none ∧
    ConfigFileManager.removeEnvVariable (((ConfigFileManager.writeEnvVariable (freshState (strL "/bin/" ++ shell)) (n1 ++ (c :: cs)) v2 (some shell) (some cmt2) true).2.files (primaryPath shell)).getD [])
      (some n1) (some shell) = ((ConfigFileManager.writeEnvVariable (freshState (strL "/bin/" ++ shell)) (n1 ++ (c :: cs)) v2 (some shell) (some cmt2) true).2.files (primaryPath shell)).getD [] ∧
    ConfigFileManager.readEnvVariable (ConfigFileManager.writeEnvVariable (ConfigFileManager.writeEnvVariable (freshState (strL "/bin/" ++ shell)) (n1 ++ (c :: cs)) v2 (some shell) (some cmt2) true).2 n1 v1 (some shell) (some cmt1) true).2 (n1 ++ (c :: cs)) = some v2 ∧
    ConfigFileManager.readEnvVariable (ConfigFileManager.writeEnvVariable (ConfigFileManager.writeEnvVariable (freshState (strL "/bin/" ++ shell)) (n1 ++ (c :: cs)) v2 (some shell) (some cmt2) true).2 n1 v1 (some shell) (some cmt1) true).2 n1 = some v1 ∧
    countAssignLines shell (n1 ++ (c :: cs)) (((ConfigFileManager.writeEnvVariable (ConfigFileManager.writeEnvVariable (freshState (strL "/bin/" ++ shell)) (n1 ++ (c :: cs)) v2 (some shell) (some cmt2) true).2 n1 v1 (some shell) (some cmt1) true).2.files (primaryPath shell)).getD []) = 1 := by
  obtain ⟨hne, hncmd⟩ := supportedShell_facts hshell
  have hfiles0 : ∀ p, (freshState (strL "/bin/" ++ shell)).files p = none := fun p => rfl
  have hcfg1 : ShellDetector.getShellConfigPath (freshState (strL "/bin/" ++ shell))
      (some shell) = primaryPath shell := getShellConfigPath_fresh hshell _ rfl hfiles0
  have hw1 := writeEnvVariable_run (freshState (strL "/bin/" ++ shell)) (n1 ++ (c :: cs)) v2 shell cmt2 hne hncmd
  rw [hcfg1, show ((freshState (strL "/bin/" ++ shell)).files (primaryPath shell)).getD [] = []
    from rfl, writeResultContent_nil] at hw1
  have hfile1 : (ConfigFileManager.writeEnvVariable (freshState (strL "/bin/" ++ shell)) (n1 ++ (c :: cs)) v2 (some shell) (some cmt2) true).2.files (primaryPath shell) = some (writeBlock shell (n1 ++ (c :: cs)) v2 cmt2) := by
    rw [hw1]
    exact updateMap_same _ _ _
  have hhome1 : (ConfigFileManager.writeEnvVariable (freshState (strL "/bin/" ++ shell)) (n1 ++ (c :: cs)) v2 (some shell) (some cmt2) true).2.home = strL "/home/user" := by
    rw [hw1]
    rfl
  have henv1 : ∀ m, ¬ m = strL "SHELL" → (ConfigFileManager.writeEnvVariable (freshState (strL "/bin/" ++ shell)) (n1 ++ (c :: cs)) v2 (some shell) (some cmt2) true).2.env m = none := by
    intro m hm
    rw [hw1]
    simp [freshState, hm]
  have hdet1 : ShellDetector.detectShell (ConfigFileManager.writeEnvVariable (freshState (strL "/bin/" ++ shell)) (n1 ++ (c :: cs)) v2 (some shell) (some cmt2) true).2 = shell := by
    rw [hw1]
    exact detectShell_fresh hshell
  have hex0 : ConfigFileManager.extractEnvVariable (writeBlock shell (n1 ++ (c :: cs)) v2 cmt2) n1 shell = none := by
    rw [ConfigFileManager.extractEnvVariable,
      show writeBlock shell (n1 ++ (c :: cs)) v2 cmt2 = writeBlock shell (n1 ++ (c :: cs)) v2 cmt2 ++ [] from by simp,
      extract_writeBlock_prefix1_t cs [] hshell hn1 hn2 hc hv2 hcmt2, extractScan_nil]
  have hr1 : ConfigFileManager.readEnvVariable (ConfigFileManager.writeEnvVariable (freshState (strL "/bin/" ++ shell)) (n1 ++ (c :: cs)) v2 (some shell) (some cmt2) true).2 n1 = none := by
    rw [readEnvVariable_no_env (henv1 n1 hn1sh), hdet1]
    obtain ⟨rest, hp, hrest⟩ := paths_full hshell _ hhome1
    rw [hp, readPaths_skip_first rest hfile1 hex0]
    refine readPaths_all_none fun p hp2 => ?_
    rw [hw1]
    simp [updateMap, hrest p hp2, freshState]
  have hr2 : ConfigFileManager.removeEnvVariable (((ConfigFileManager.writeEnvVariable (freshState (strL "/bin/" ++ shell)) (n1 ++ (c :: cs)) v2 (some shell) (some cmt2) true).2.files (primaryPath shell)).getD [])
      (some n1) (some shell) = ((ConfigFileManager.writeEnvVariable (freshState (strL "/bin/" ++ shell)) (n1 ++ (c :: cs)) v2 (some shell) (some cmt2) true).2.files (primaryPath shell)).getD [] := by
    rw [hfile1, Option.getD_some]
    exact remove_writeBlock_prefix1 cs hshell hn1 hn2 hc hv2 hcmt2
  have hcfg2 : ShellDetector.getShellConfigPath (ConfigFileManager.writeEnvVariable (freshState (strL "/bin/" ++ shell)) (n1 ++ (c :: cs)) v2 (some shell) (some cmt2) true).2 (some shell) = primaryPath shell :=
    getShellConfigPath_existing hshell _ hhome1 (by rw [hfile1]; rfl)
  have hw2 := writeEnvVariable_run (ConfigFileManager.writeEnvVariable (freshState (strL "/bin/" ++ shell)) (n1 ++ (c :: cs)) v2 (some shell) (some cmt2) true).2 n1 v1 shell cmt1 hne hncmd
  rw [hcfg2, show ((ConfigFileManager.writeEnvVariable (freshState (strL "/bin/" ++ shell)) (n1 ++ (c :: cs)) v2 (some shell) (some cmt2) true).2.files (primaryPath shell)).getD [] = writeBlock shell (n1 ++ (c :: cs)) v2 cmt2
    from by rw [hfile1, Option.getD_some]] at hw2
  have hpad2 : padNl (writeBlock shell (n1 ++ (c :: cs)) v2 cmt2) = [] := by
    rw [padNl, if_neg]
    intro hcontra
    apply hcontra.2
    rw [writeBlock_shape, show (nl :: '#' :: ' ' :: (cmt2 ++ (nl :: (lineFor shell (n1 ++ (c :: cs)) v2 ++ [nl]))) : Str) =
      (nl :: '#' :: ' ' :: (cmt2 ++ (nl :: lineFor shell (n1 ++ (c :: cs)) v2))) ++ [nl] from by simp]
    exact List.getLast?_concat _
  have hwrc2 : writeResultContent shell n1 v1 cmt1 (writeBlock shell (n1 ++ (c :: cs)) v2 cmt2) =
      writeBlock shell (n1 ++ (c :: cs)) v2 cmt2 ++ writeBlock shell n1 v1 cmt1 := by
    simp only [writeResultContent, hex0]
    simp [hpad2]
  rw [hwrc2] at hw2
  have hfile2 : (ConfigFileManager.writeEnvVariable (ConfigFileManager.writeEnvVariable (freshState (strL "/bin/" ++ shell)) (n1 ++ (c :: cs)) v2 (some shell) (some cmt2) true).2 n1 v1 (some shell) (some cmt1) true).2.files (primaryPath shell) =
      some (writeBlock shell (n1 ++ (c :: cs)) v2 cmt2 ++ writeBlock shell n1 v1 cmt1) := by
    rw [hw2]
    exact updateMap_same _ _ _
  have henv2 : ∀ m, ¬ m = strL "SHELL" → (ConfigFileManager.writeEnvVariable (ConfigFileManager.writeEnvVariable (freshState (strL "/bin/" ++ shell)) (n1 ++ (c :: cs)) v2 (some shell) (some cmt2) true).2 n1 v1 (some shell) (some cmt1) true).2.env m = none := by
    intro m hm
    rw [hw2]
    exact henv1 m hm
  have hdet2 : ShellDetector.detectShell (ConfigFileManager.writeEnvVariable (ConfigFileManager.writeEnvVariable (freshState (strL "/bin/" ++ shell)) (n1 ++ (c :: cs)) v2 (some shell) (some cmt2) true).2 n1 v1 (some shell) (some cmt1) true).2 = shell := by
    rw [hw2]
    exact hdet1
  have hhome2 : (ConfigFileManager.writeEnvVariable (ConfigFileManager.writeEnvVariable (freshState (strL "/bin/" ++ shell)) (n1 ++ (c :: cs)) v2 (some shell) (some cmt2) true).2 n1 v1 (some shell) (some cmt1) true).2.home = strL "/home/user" := by
    rw [hw2]
    exact hhome1
  refine ⟨hr1, hr2, ?_, ?_, ?_⟩
  · rw [readEnvVariable_no_env (henv2 _ hn2sh), hdet2]
    obtain ⟨rest, hp, _⟩ := paths_full hshell _ hhome2
    rw [hp]
    refine readPaths_cons_some rest hfile2 ?_ hv2.1
    rw [ConfigFileManager.extractEnvVariable]
    exact extract_writeBlock_t _ hshell hn2 hv2 hcmt2
  · rw [readEnvVariable_no_env (henv2 _ hn1sh), hdet2]
    obtain ⟨rest, hp, _⟩ := paths_full hshell _ hhome2
    rw [hp]
    refine readPaths_cons_some rest hfile2 ?_ hv1.1
    rw [ConfigFileManager.extractEnvVariable,
      extract_writeBlock_prefix1_t cs _ hshell hn1 hn2 hc hv2 hcmt2]
    exact extract_writeBlock hshell hn1 hv1 hcmt1
  · rw [hfile2, Option.getD_some]
    exact countAssignLines_two_blocks cs hshell hn1 hn2 hc hv1 hv2 hcmt1 hcmt2

/-- C5 witness: bash, API_KEY against API_KEY_SECONDARY. -/
theorem c5_prefix_isolation_witness :
    ConfigFileManager.readEnvVariable (ConfigFileManager.writeEnvVariable (freshState (strL "/bin/" ++ strL "bash")) (strL "API_KEY" ++ (Char.ofNat 95 :: strL "SECONDARY")) (strL "two") (some (strL "bash")) (some (strL "c")) true).2 (strL "API_KEY") = none ∧
    ConfigFileManager.removeEnvVariable (((ConfigFileManager.writeEnvVariable (freshState (strL "/bin/" ++ strL "bash")) (strL "API_KEY" ++ (Char.ofNat 95 :: strL "SECONDARY")) (strL "two") (some (strL "bash")) (some (strL "c")) true).2.files (primaryPath (strL "bash"))).getD [])
      (some (strL "API_KEY")) (some (strL "bash")) =
      ((ConfigFileManager.writeEnvVariable (freshState (strL "/bin/" ++ strL "bash")) (strL "API_KEY" ++ (Char.ofNat 95 :: strL "SECONDARY")) (strL "two") (some (strL "bash")) (some (strL "c")) true).2.files (primaryPath (strL "bash"))).getD [] ∧
    ConfigFileManager.readEnvVariable (ConfigFileManager.writeEnvVariable (ConfigFileManager.writeEnvVariable (freshState (strL "/bin/" ++ strL "bash")) (strL "API_KEY" ++ (Char.ofNat 95 :: strL "SECONDARY")) (strL "two") (some (strL "bash")) (some (strL "c")) true).2 (strL "API_KEY") (strL "one") (some (strL "bash")) (some (strL "c")) true).2 (strL "API_KEY" ++ (Char.ofNat 95 :: strL "SECONDARY")) = some (strL "two") ∧
    ConfigFileManager.readEnvVariable (ConfigFileManager.writeEnvVariable (ConfigFileManager.writeEnvVariable (freshState (strL "/bin/" ++ strL "bash")) (strL "API_KEY" ++ (Char.ofNat 95 :: strL "SECONDARY")) (strL "two") (some (strL "bash")) (some (strL "c")) true).2 (strL "API_KEY") (strL "one") (some (strL "bash")) (some (strL "c")) true).2 (strL "API_KEY") = some (strL "one") ∧
    countAssignLines (strL "bash") (strL "API_KEY" ++ (Char.ofNat 95 :: strL "SECONDARY"))
      (((ConfigFileManager.writeEnvVariable (ConfigFileManager.writeEnvVariable (freshState (strL "/bin/" ++ strL "bash")) (strL "API_KEY" ++ (Char.ofNat 95 :: strL "SECONDARY")) (strL "two") (some (strL "bash")) (some (strL "c")) true).2 (strL "API_KEY") (strL "one") (some (strL "bash")) (some (strL "c")) true).2.files (primaryPath (strL "bash"))).getD []) = 1 :=
  c5_prefix_isolation (strL "bash") (strL "API_KEY") (strL "one") (strL "two") (strL "c") (strL "c")
    (Char.ofNat 95) (strL "SECONDARY") (Or.inl rfl) (by decide) (by decide) (by decide)
    (by decide) (by decide) (by decide) (by decide) (by decide) (by decide)

/-!
## C6: the storeApiKey validation gate
-/

/-- An omitted `shell` option behaves as the detected shell: both resolve
through `resolveShell`. -/
theorem writeEnvVariable_none_shell (st : SysState) (n v cmt : Str) (ow : Bool) :
    ConfigFileManager.writeEnvVariable st n v none (some cmt) ow =
      ConfigFileManager.writeEnvVariable st n v (some (ShellDetector.detectShell st))
        (some cmt) ow := by
  have h : ShellDetector.resolveShell st none =
      ShellDetector.resolveShell st (some (ShellDetector.detectShell st)) := by
    rw [ShellDetector.resolveShell, ShellDetector.resolveShell]
    by_cases hd : ShellDetector.detectShell st = []
    · simp [hd]
    · simp [hd]
  rw [ConfigFileManager.writeEnvVariable, ConfigFileManager.writeEnvVariable, h]

/-- C6: `storeApiKey` with a key that is empty, lacks the `PMAK-` prefix,
or is shorter than 20 characters reports failure and returns the state
untouched (in particular no file changes); while `PMAK-` followed by any
20 characters passes `validateApiKey` and the write proceeds: from a
fresh bash state the call reports success and the config file now holds
the generated block for `POSTMAN_API_KEY`. -/
theorem c6_validation_gate (st : SysState) (key suffix : Str)
    (hbad : key = [] ∨ ¬ ((strL "PMAK-").isPrefixOf key = true) ∨ key.length < 20)
    (hlen : suffix.length = 20) :
    CredentialStorage.storeApiKey st key = (false, st) ∧
    Validator.validateApiKey key = false ∧
    Validator.validateApiKey (strL "PMAK-" ++ suffix) = true ∧
    (CredentialStorage.storeApiKey (freshState (strL "/bin/" ++ strL "bash")) (strL "PMAK-" ++ suffix)).1 = true ∧
    (CredentialStorage.storeApiKey (freshState (strL "/bin/" ++ strL "bash")) (strL "PMAK-" ++ suffix)).2.files (primaryPath (strL "bash")) =
      some (writeBlock (strL "bash") (strL "POSTMAN_API_KEY") (strL "PMAK-" ++ suffix) (strL "Postman API Key for flowman-cli")) := by
  have hval : Validator.validateApiKey key = false := by
    rcases hbad with h | h | h
    · rw [Validator.validateApiKey, if_pos h]
    · rw [Validator.validateApiKey]
      by_cases h1 : key = []
      · rw [if_pos h1]
      · rw [if_neg h1, if_pos h]
    · rw [Validator.validateApiKey]
      by_cases h1 : key = []
      · rw [if_pos h1]
      · rw [if_neg h1]
        by_cases h2 : ¬ ((strL "PMAK-").isPrefixOf key = true)
        · rw [if_pos h2]
        · rw [if_neg h2, if_pos h]
  have hpre : (strL "PMAK-").isPrefixOf (strL "PMAK-" ++ suffix) = true :=
    List.isPrefixOf_iff_prefix.mpr (List.prefix_append _ _)
  have h5 : (strL "PMAK-").length = 5 := by decide
  have hvalid : Validator.validateApiKey (strL "PMAK-" ++ suffix) = true := by
    rw [Validator.validateApiKey,
      if_neg (by intro h; exact absurd (List.append_eq_nil.mp h).1 (by decide)),
      if_neg (by simp [hpre]), if_neg (by simp [List.length_append, h5, hlen])]
  have hfiles0 : ∀ p, (freshState (strL "/bin/" ++ strL "bash")).files p = none := fun p => rfl
  have hcfg1 : ShellDetector.getShellConfigPath (freshState (strL "/bin/" ++ strL "bash")) (some (strL "bash")) =
      primaryPath (strL "bash") :=
    getShellConfigPath_fresh (Or.inl rfl) _ rfl hfiles0
  have hwB : ConfigFileManager.writeEnvVariable (freshState (strL "/bin/" ++ strL "bash")) (strL "POSTMAN_API_KEY") (strL "PMAK-" ++ suffix)
      none (some (strL "Postman API Key for flowman-cli")) true =
      (true, { (freshState (strL "/bin/" ++ strL "bash")) with
          files :=
            updateMap (freshState (strL "/bin/" ++ strL "bash")).files (primaryPath (strL "bash"))
              (some (writeBlock (strL "bash") (strL "POSTMAN_API_KEY") (strL "PMAK-" ++ suffix) (strL "Postman API Key for flowman-cli"))) }) := by
    rw [writeEnvVariable_none_shell, detectShell_fresh (Or.inl rfl),
      writeEnvVariable_run _ _ _ _ _ (by decide) (by decide), hcfg1,
      show ((freshState (strL "/bin/" ++ strL "bash")).files (primaryPath (strL "bash"))).getD [] = [] from rfl,
      writeResultContent_nil]
  have hstore : CredentialStorage.storeApiKey (freshState (strL "/bin/" ++ strL "bash")) (strL "PMAK-" ++ suffix) =
      (true, { (freshState (strL "/bin/" ++ strL "bash")) with
          files :=
            updateMap (freshState (strL "/bin/" ++ strL "bash")).files (primaryPath (strL "bash"))
              (some (writeBlock (strL "bash") (strL "POSTMAN_API_KEY") (strL "PMAK-" ++ suffix) (strL "Postman API Key for flowman-cli")))
          env :=
            updateMap (freshState (strL "/bin/" ++ strL "bash")).env (strL "POSTMAN_API_KEY") (some (strL "PMAK-" ++ suffix)) }) := by
    rw [CredentialStorage.storeApiKey, if_neg (by simp [hvalid])]
    simp only [CredentialStorage.POSTMAN_API_KEY, hwB]
    rfl
  refine ⟨?_, hval, hvalid, ?_, ?_⟩
  · rw [CredentialStorage.storeApiKey, if_pos hval]
  · rw [hstore]
  · rw [hstore]
    simp [updateMap]

/-- C6 witness: the rejected key `bad-key` and the accepted
`PMAK-` + 20 characters. -/
theorem c6_validation_gate_witness :
    CredentialStorage.storeApiKey (freshState (strL "/bin/" ++ strL "bash")) (strL "bad-key") =
      (false, freshState (strL "/bin/" ++ strL "bash")) ∧
    Validator.validateApiKey (strL "bad-key") = false ∧
    Validator.validateApiKey (strL "PMAK-" ++ strL "aaaaaaaaaaaaaaaaaaaa") = true ∧
    (CredentialStorage.storeApiKey (freshState (strL "/bin/" ++ strL "bash"))
      (strL "PMAK-" ++ strL "aaaaaaaaaaaaaaaaaaaa")).1 = true ∧
    (CredentialStorage.storeApiKey (freshState (strL "/bin/" ++ strL "bash"))
        (strL "PMAK-" ++ strL "aaaaaaaaaaaaaaaaaaaa")).2.files (primaryPath (strL "bash")) =
      some (writeBlock (strL "bash") (strL "POSTMAN_API_KEY")
        (strL "PMAK-" ++ strL "aaaaaaaaaaaaaaaaaaaa")
        (strL "Postman API Key for flowman-cli")) :=
  c6_validation_gate (freshState (strL "/bin/" ++ strL "bash")) (strL "bad-key")
    (strL "aaaaaaaaaaaaaaaaaaaa") (Or.inr (Or.inl (by decide))) (by decide)

/-!
## C1, C2, C8: the shadowed removeEnvVariable and its consequences

In the source class body of part_005, `removeEnvVariable` is defined
twice; the later three-argument content transform overwrites the public
one-argument method.  Every call `removeEnvVariable(name)` therefore
runs the transform with `content = name` and `variableName = shell =
undefined`, returns the (truthy, unchanged) name string, and never
touches the file system.
-/

/-- C1 [code_bug]: with a format-valid key and a remote validator that
rejects it, `authenticateWithApiKey` reports failure, but the
just-written credentials are NOT rolled back: the key still reads back
and the config file still holds its assignment line. -/
theorem c1_rollback_bug :
    (AuthManager.authenticateWithApiKey (freshState (strL "/bin/" ++ strL "bash")) (strL "PMAK-aaaaaaaaaaaaaaaaaaaa") none (fun _ => false)).1 = false ∧
    CredentialStorage.getApiKey (AuthManager.authenticateWithApiKey (freshState (strL "/bin/" ++ strL "bash")) (strL "PMAK-aaaaaaaaaaaaaaaaaaaa") none (fun _ => false)).2 = some (strL "PMAK-aaaaaaaaaaaaaaaaaaaa") ∧
    countAssignLines (strL "bash") (strL "POSTMAN_API_KEY")
      (((AuthManager.authenticateWithApiKey (freshState (strL "/bin/" ++ strL "bash")) (strL "PMAK-aaaaaaaaaaaaaaaaaaaa") none (fun _ => false)).2.files (primaryPath (strL "bash"))).getD []) = 1 :=
  ⟨by decide, by decide, by decide⟩

/-- C2 [code_bug]: the public one-argument `removeEnvVariable(name)` has
been shadowed by the content transform, so the dispatched call merely
maps the variable NAME (as content) to itself — it reads no file and
persists nothing — and a previously written variable remains readable
after "removal". -/
theorem c2_remove_bug :
    ConfigFileManager.removeEnvVariable (strL "API_KEY") none none = strL "API_KEY" ∧
    ConfigFileManager.readEnvVariable
      (ConfigFileManager.writeEnvVariable (freshState (strL "/bin/" ++ strL "bash"))
        (strL "API_KEY") (strL "v") (some (strL "bash")) (some (strL "c")) true).2
      (strL "API_KEY") = some (strL "v") :=
  ⟨by decide, by decide⟩

/-- C8 [code_bug]: `clearCredentials` always reports success — even on a
fresh state with nothing stored (the spec requires "nothing to clear" /
failure there) — and never changes the file map, so after storing a key
both `clearCredentials` and `logout` report success while the key is
still stored. -/
theorem c8_clear_bug :
    (CredentialStorage.clearCredentials (freshState (strL "/bin/" ++ strL "bash"))).1 = true ∧
    (CredentialStorage.clearCredentials (CredentialStorage.storeApiKey (freshState (strL "/bin/" ++ strL "bash")) (strL "PMAK-aaaaaaaaaaaaaaaaaaaa")).2).2.files = (CredentialStorage.storeApiKey (freshState (strL "/bin/" ++ strL "bash")) (strL "PMAK-aaaaaaaaaaaaaaaaaaaa")).2.files ∧
    CredentialStorage.getApiKey (CredentialStorage.clearCredentials (CredentialStorage.storeApiKey (freshState (strL "/bin/" ++ strL "bash")) (strL "PMAK-aaaaaaaaaaaaaaaaaaaa")).2).2 = some (strL "PMAK-aaaaaaaaaaaaaaaaaaaa") ∧
    (AuthManager.logout (CredentialStorage.storeApiKey (freshState (strL "/bin/" ++ strL "bash")) (strL "PMAK-aaaaaaaaaaaaaaaaaaaa")).2).1 = true ∧
    CredentialStorage.getApiKey (AuthManager.logout (CredentialStorage.storeApiKey (freshState (strL "/bin/" ++ strL "bash")) (strL "PMAK-aaaaaaaaaaaaaaaaaaaa")).2).2 = some (strL "PMAK-aaaaaaaaaaaaaaaaaaaa") :=
  ⟨by decide, rfl, by decide, by decide, by decide⟩

/-!
## C9: a read never returns the empty string
-/

theorem readPaths_never_empty (files : Str → Option Str) (n sh : Str) :
    ∀ paths, ¬ ConfigFileManager.readPaths files paths n sh = some [] := by
  intro paths
  induction paths with
  | nil => simp [ConfigFileManager.readPaths]
  | cons p rest ih =>
    rw [ConfigFileManager.readPaths]
    cases hf : files p with
    | none => simpa using ih
    | some content =>
      cases hx : ConfigFileManager.extractEnvVariable content n sh with
      | none => simpa [hx] using ih
      | some v =>
        by_cases hv : v = []
        · subst hv
          simpa [hx] using ih
        · simp [hx, hv]

/-- A state whose process environment maps every name to the empty
string (every variable set but empty, hence falsy). -/
def emptyEnvState : SysState :=
  { env := fun _ => some [], files := fun _ => none,
    platform := strL "linux", home := strL "/home/user" }

/-- C9 (amended): `readEnvVariable` never returns the empty string: an
empty-string environment value is falsy and falls through to the config
files, and the file loop only ever returns a nonempty extraction.  An
assignment line carrying the empty quoted value is not matched by the
bash/zsh and fish extraction patterns (the value group needs at least
one character), but — contrary to the original claim — the powershell
pattern backtracks across `\s*=\s*` and captures the separating space,
so that line extracts to the one-character string `" "` rather than
reporting the variable absent. -/
theorem c9_read_never_empty (st : SysState) (name : Str) :
    ¬ ConfigFileManager.readEnvVariable st name = some [] ∧
    (st.env name = some [] →
      ConfigFileManager.readEnvVariable st name =
        ConfigFileManager.readPaths st.files
          (ShellDetector.getAllShellConfigPaths st (some (ShellDetector.detectShell st)))
          name (ShellDetector.detectShell st)) ∧
    ConfigFileManager.extractEnvVariable (strL "export POSTMAN_API_KEY=\"\"")
      (strL "POSTMAN_API_KEY") (strL "bash") = none ∧
    ConfigFileManager.extractEnvVariable (strL "set -gx POSTMAN_API_KEY \"\"")
      (strL "POSTMAN_API_KEY") (strL "fish") = none ∧
    ConfigFileManager.extractEnvVariable (strL "$env:POSTMAN_API_KEY = \"\"")
      (strL "POSTMAN_API_KEY") (strL "powershell") = some (strL " ") := by
  refine ⟨?_, ?_, by decide, by decide, by decide⟩
  · rw [ConfigFileManager.readEnvVariable]
    cases henv : st.env name with
    | none => exact readPaths_never_empty _ _ _ _
    | some v =>
      by_cases hv : v = []
      · subst hv
        simpa using readPaths_never_empty st.files name (ShellDetector.detectShell st) _
      · simp [hv]
  · intro henv
    rw [ConfigFileManager.readEnvVariable, henv]
    simp

/-- C9 witness: on a state where every environment variable is set to
the empty string, the read falls through to the (empty) file map and
does not return the empty string. -/
theorem c9_read_never_empty_witness :
    ¬ ConfigFileManager.readEnvVariable emptyEnvState (strL "POSTMAN_API_KEY") = some [] ∧
    ConfigFileManager.readEnvVariable emptyEnvState (strL "POSTMAN_API_KEY") =
      ConfigFileManager.readPaths emptyEnvState.files
        (ShellDetector.getAllShellConfigPaths emptyEnvState
          (some (ShellDetector.detectShell emptyEnvState)))
        (strL "POSTMAN_API_KEY") (ShellDetector.detectShell emptyEnvState) := by
  obtain ⟨h1, h2, _⟩ := c9_read_never_empty emptyEnvState (strL "POSTMAN_API_KEY")
  exact ⟨h1, h2 rfl⟩

/-- C9 counterexample to the original wording: in powershell syntax the
empty-quoted assignment line IS matched — the capture group takes the
space between `=` and `""` — so a read reports the variable present
with value `" "` instead of absent. -/
theorem c9_read_never_empty_counterexample :
    ConfigFileManager.extractEnvVariable (strL "$env:POSTMAN_API_KEY = \"\"")
      (strL "POSTMAN_API_KEY") (strL "powershell") = some (strL " ") ∧
    ConfigFileManager.readEnvVariable
      { env := fun n => if n = strL "SHELL" then some (strL "/bin/powershell") else none,
        files := fun p => if p = primaryPath (strL "powershell")
          then some (strL "$env:POSTMAN_API_KEY = \"\"") else none,
        platform := strL "linux", home := strL "/home/user" }
      (strL "POSTMAN_API_KEY") = some (strL " ") :=
  ⟨by decide, by decide⟩

end Flowman
